import Mathlib

/-!
Verification development for the `python-javaobj` stream-parser core.

This file shallowly embeds the decoder found in
`src/javaobj/deserialize/core.py` (the "deserialize" variant),
`src/javaobj/v2/core.py` (the "v2" variant) and the default object
transformers of `src/javaobj/transformers.py` into Lean, and proves the
frozen specification claims about them.

The two parser variants are textually identical except for the tail of
`_do_enum`: the deserialize variant stores the enum's constant-name string
under the freshly allocated handle, while the v2 variant stores the enum
object itself.  The embedding is therefore a single set of definitions
parameterised over an `EnumMode`; a third mode, `.abort`, aborts with a
distinguished error as soon as the ENUM handler is dispatched and is used
to phrase "the input contains no ENUM tag" for the equivalence claim.

Modelling conventions:
* Python byte strings are `List Nat` (each entry < 256 by construction of
  the reads; nothing relies on the bound).
* Machine integers are `Int` with explicit signed reinterpretation of the
  big-endian bytes; handle counters are `Nat`.
* Python exceptions are an explicit error type threaded by a state monad;
  an exception propagates together with the state at the raise point,
  matching Python's in-place mutation.
* Parsed contents are immutable values: `_set_handle` stores the value as
  of binding time.  (Python stores aliases of mutable objects; no theorem
  below depends on observing a later mutation through the table.)
-/

set_option linter.unusedVariables false

namespace Javaobj

/-! ## Constants (values from the spec, section 6, matching `constants.py`) -/

/-- Modelled from the spec: the tag/flag constants of `javaobj.constants`
(not under `src/`); values are listed bit-exactly in spec section 6. -/
def STREAM_MAGIC : Nat := 0xACED

def STREAM_VERSION : Nat := 5

def TC_NULL : Nat := 0x70
def TC_REFERENCE : Nat := 0x71
def TC_CLASSDESC : Nat := 0x72
def TC_OBJECT : Nat := 0x73
def TC_STRING : Nat := 0x74
def TC_ARRAY : Nat := 0x75
def TC_CLASS : Nat := 0x76
def TC_BLOCKDATA : Nat := 0x77
def TC_ENDBLOCKDATA : Nat := 0x78
def TC_RESET : Nat := 0x79
def TC_BLOCKDATALONG : Nat := 0x7A
def TC_EXCEPTION : Nat := 0x7B
def TC_LONGSTRING : Nat := 0x7C
def TC_PROXYCLASSDESC : Nat := 0x7D
def TC_ENUM : Nat := 0x7E

def SC_WRITE_METHOD : Nat := 0x01
def SC_SERIALIZABLE : Nat := 0x02
def SC_EXTERNALIZABLE : Nat := 0x04
def SC_BLOCK_DATA : Nat := 0x08
def SC_ENUM : Nat := 0x10

/-- First allocated handle value (`BASE_REFERENCE_IDX`), spec section 6. -/
def BASE_REFERENCE_IDX : Nat := 0x7E0000

/-- Primitive field type characters `B,C,D,F,I,J,S,Z` as bytes. -/
def PRIMITIVE_TYPES : List Nat := [66, 67, 68, 70, 73, 74, 83, 90]

def TYPE_OBJECT : Nat := 76
def TYPE_ARRAY : Nat := 91

/-! ## Content model

Embedded from the `beans` value shapes as used by `core.py`
(`JavaString`, `JavaField`, `JavaClassDesc`, `JavaClass`, `JavaArray`,
`JavaEnum`, `JavaInstance`, `BlockData`, `ExceptionState`). -/

inductive FieldType where
  | byte | char | double | float | int | long | short | boolean
  | object | array
deriving DecidableEq, Repr

/-- `FieldType(byte_value)`: Python enum construction; an unknown byte
raises `ValueError`. -/
def fieldTypeOf (b : Nat) : Option FieldType :=
  if b = 66 then some .byte
  else if b = 67 then some .char
  else if b = 68 then some .double
  else if b = 70 then some .float
  else if b = 73 then some .int
  else if b = 74 then some .long
  else if b = 83 then some .short
  else if b = 90 then some .boolean
  else if b = 76 then some .object
  else if b = 91 then some .array
  else none

inductive ClassDescType where
  | normalClass | proxyClass
deriving DecidableEq, Repr

/-- A decoded Java string: handle plus raw (modified-UTF-8) bytes.
Decoding to text is abstracted away: no claim inspects the decoded
characters, only the raw data. -/
structure JString where
  handle : Nat
  data : List Nat
deriving DecidableEq, Repr

/-- A field record of a class descriptor (`JavaField`). -/
structure JField where
  ftype : FieldType
  name : List Nat
  className : Option JString := none
deriving DecidableEq, Repr

/-- Primitive field values as read by `_read_field_value`.  Floating
point values keep their raw big-endian bytes: no claim interprets them. -/
inductive PrimValue where
  | byte (v : Int)
  | char (v : Nat)
  | double (raw : List Nat)
  | float (raw : List Nat)
  | int (v : Int)
  | long (v : Int)
  | short (v : Int)
  | boolean (v : Bool)
deriving DecidableEq, Repr

mutual

inductive JClassDesc where
  | mk (descType : ClassDescType) (name : List Nat) (svuid : Int)
       (handle : Nat) (descFlags : Nat) (fields : List JField)
       (interfaces : List (List Nat))
       (annotations : List (Option JContent))
       (superClass : Option JClassDesc)
       (enumConstants : List (List Nat))

inductive JInstance where
  | mk (handle : Nat) (classdesc : Option JClassDesc)
       (fieldData : List (JClassDesc × List (JField × JValue)))
       (annotations : List (JClassDesc × List (Option JContent)))
       (isException : Bool)

inductive JValue where
  | prim (p : PrimValue)
  | content (c : Option JContent)

inductive JContent where
  | blockData (data : List Nat)
  | jstring (s : JString)
  | classDesc (cd : JClassDesc)
  | classObj (handle : Nat) (cd : Option JClassDesc)
  | jarray (handle : Nat) (cd : JClassDesc) (ftype : FieldType)
           (values : List JValue)
  | jenum (handle : Nat) (cd : JClassDesc) (constant : JString)
  | instance (i : JInstance)
  | excState (inner : JContent) (raw : List Nat)

end

namespace JClassDesc

def descType : JClassDesc → ClassDescType | .mk t _ _ _ _ _ _ _ _ _ => t
def name : JClassDesc → List Nat | .mk _ n _ _ _ _ _ _ _ _ => n
def svuid : JClassDesc → Int | .mk _ _ v _ _ _ _ _ _ _ => v
def handle : JClassDesc → Nat | .mk _ _ _ h _ _ _ _ _ _ => h
def descFlags : JClassDesc → Nat | .mk _ _ _ _ f _ _ _ _ _ => f
def fields : JClassDesc → List JField | .mk _ _ _ _ _ fs _ _ _ _ => fs
def interfaces : JClassDesc → List (List Nat) | .mk _ _ _ _ _ _ i _ _ _ => i
def annotations : JClassDesc → List (Option JContent)
  | .mk _ _ _ _ _ _ _ a _ _ => a
def superClass : JClassDesc → Option JClassDesc
  | .mk _ _ _ _ _ _ _ _ s _ => s
def enumConstants : JClassDesc → List (List Nat)
  | .mk _ _ _ _ _ _ _ _ _ e => e

/-- `cd.enum_constants.add(x)` (set insertion). -/
def addEnumConstant (cd : JClassDesc) (x : List Nat) : JClassDesc :=
  match cd with
  | .mk t n v h f fs i a s e =>
      .mk t n v h f fs i a s (if x ∈ e then e else e ++ [x])

/-- Modelled from the spec: `JavaClassDesc.get_hierarchy` of the `beans`
module (not under `src/`): the computed hierarchy is the super-first
ordered list of ancestor descriptors (spec sections 3 and 4.6). -/
def hierarchy : JClassDesc → List JClassDesc
  | .mk t n v h f fs i a s e =>
      (match s with
       | some sup => hierarchy sup
       | none => []) ++ [.mk t n v h f fs i a s e]

end JClassDesc

namespace JInstance

def handle : JInstance → Nat | .mk h _ _ _ _ => h
def classdesc : JInstance → Option JClassDesc | .mk _ c _ _ _ => c
def fieldData : JInstance → List (JClassDesc × List (JField × JValue))
  | .mk _ _ d _ _ => d
def annotations : JInstance → List (JClassDesc × List (Option JContent))
  | .mk _ _ _ a _ => a
def isException : JInstance → Bool | .mk _ _ _ _ e => e

def withData (i : JInstance)
    (d : List (JClassDesc × List (JField × JValue)))
    (a : List (JClassDesc × List (Option JContent))) : JInstance :=
  match i with
  | .mk h c _ _ e => .mk h c d a e

def setException (i : JInstance) : JInstance :=
  match i with
  | .mk h c d a _ => .mk h c d a true

end JInstance

namespace JContent

/-- `content.is_exception`: only instances ever carry the flag. -/
def isException : JContent → Bool
  | .instance i => i.isException
  | _ => false

def isInstance : JContent → Bool
  | .instance _ => true
  | _ => false

end JContent

/-! ## Errors and the parser monad -/

/-- The distinct `ValueError` raise sites of the parsers. -/
inductive VErr where
  | invalidMagic | invalidVersion
  | blockDataNotAllowed | unknownTag
  | notAStringReference | invalidStringLength
  | invalidFieldCount | invalidFieldTypeChar
  | nullMustBeNew | referenceMustBeNew | notAClassDesc | badClassDescTag
  | handleCollision | unknownHandle
  | serializableAndExternalizable | enumAndWriteMethod
  | cannotInterpretExternalizable
  | arrayTypeMismatch | badFieldType
  | enumNullDesc | invalidArrayName | fieldTypeValue | invalidArraySize
  | resetInException | nullException | exceptionNotInstance
  | badBlockDataType | negativeBlockSize
deriving DecidableEq, Repr

/-- Python exceptions raised (or modelled) inside the parser.
`fuelOut` is an artifact of the fuel-bounded embedding of the recursive
descent; `enumHit` is raised only by the `.abort` instrumentation mode;
`attrErr` models an attribute access on `None`; `unboundLocal` models the
`UnboundLocalError` of `_read_new_string` on an unexpected tag;
`internalErr` marks job/result mismatches that cannot occur. -/
inductive PErr where
  | eof
  | valueErr (k : VErr)
  | exceptionRead (c : JContent)
  | attrErr
  | unboundLocal
  | fuelOut
  | enumHit
  | internalErr

/-- Parser state: the input bytes with a read position, the handle table
(in insertion order, like a Python `dict`), the archived snapshots
(`__handle_maps`) and the handle counter. -/
structure PState where
  input : List Nat
  pos : Nat
  handles : List (Nat × JContent)
  handleMaps : List (List (Nat × JContent))
  currentHandle : Nat

/-- The parser effect: state threading with Python-style exceptions (the
state at the raise point is kept, since Python mutates in place). -/
def M (α : Type) : Type := PState → Except PErr α × PState

def mpure {α : Type} (a : α) : M α := fun s => (.ok a, s)

def mbind {α β : Type} (x : M α) (k : α → M β) : M β := fun s =>
  match x s with
  | (.ok a, s') => k a s'
  | (.error e, s') => (.error e, s')

def mthrow {α : Type} (e : PErr) : M α := fun s => (.error e, s)

/-- `try ... except EOFError: handler` — only `EOFError` is caught. -/
def catchEOF {α : Type} (x : M α) (h : M α) : M α := fun s =>
  match x s with
  | (.error .eof, s') => h s'
  | r => r

/-- `try ... except ExceptionRead as ex: handler ex.exception_object` —
only the internal exception-carrier signal is caught. -/
def catchExc {α : Type} (x : M α) (h : JContent → M α) : M α := fun s =>
  match x s with
  | (.error (.exceptionRead c), s') => h c s'
  | r => r

/-! ## Byte-level reads

Modelled from the spec: `DataStreamReader` (the byte-level primitive
reader) is an external collaborator not under `src/`; the spec fixes its
behaviour: big-endian integer reads that raise on underflow
(`UnexpectedEndOfStream`), and a plain `fd.read(n)` that returns at most
`n` bytes. -/

/-- `fd.read(n)`: returns up to `n` bytes, never fails. -/
def fdRead (n : Nat) : M (List Nat) := fun s =>
  let d := (s.input.drop s.pos).take n
  (.ok d, { s with pos := s.pos + d.length })

/-- Reader read of exactly `n` bytes; underflow raises `EOFError`. -/
def readExact (n : Nat) : M (List Nat) := fun s =>
  let d := (s.input.drop s.pos).take n
  if d.length = n then (.ok d, { s with pos := s.pos + n })
  else (.error .eof, s)

/-- Big-endian unsigned value of a byte list. -/
def beU (ds : List Nat) : Nat := ds.foldl (fun a b => a * 256 + b) 0

/-- Reinterpret a `w`-bit unsigned value as signed. -/
def toSigned (w : Nat) (v : Nat) : Int :=
  if v < 2 ^ (w - 1) then (v : Int) else (v : Int) - 2 ^ w

def readUByte : M Nat := mbind (readExact 1) fun d => mpure (beU d)

def readUShort : M Nat := mbind (readExact 2) fun d => mpure (beU d)

def readShort : M Int :=
  mbind (readExact 2) fun d => mpure (toSigned 16 (beU d))

def readInt : M Int :=
  mbind (readExact 4) fun d => mpure (toSigned 32 (beU d))

def readLong : M Int :=
  mbind (readExact 8) fun d => mpure (toSigned 64 (beU d))

def readSByte : M Int :=
  mbind (readExact 1) fun d => mpure (toSigned 8 (beU d))

def readChar : M Nat := readUShort

def readBool : M Bool := mbind (readExact 1) fun d => mpure (beU d ≠ 0)

/-- Modelled from the spec: `DataStreamReader.read_UTF` reads a 16-bit
length then that many modified-UTF-8 bytes; the decoded text is kept as
its raw bytes. -/
def readUTF : M (List Nat) := mbind readUShort fun n => readExact n

def tellM : M Nat := fun s => (.ok s.pos, s)

/-- The raw window `[start, stop)` of the input, as captured by the
`tell`/`seek`/`read` sequence of `run` for exception states. -/
def rawSlice (input : List Nat) (start stop : Nat) : List Nat :=
  (input.drop start).take (stop - start)

/-! ## Handle table operations -/

def lookupHandle (h : Nat) (hs : List (Nat × JContent)) : Option JContent :=
  (hs.find? (fun p => p.1 = h)).map (·.2)

/-- `_new_handle`. -/
def newHandle : M Nat := fun s =>
  (.ok s.currentHandle, { s with currentHandle := s.currentHandle + 1 })

/-- `_set_handle`: re-binding an existing handle raises `ValueError`. -/
def setHandle (h : Nat) (c : JContent) : M Unit := fun s =>
  match lookupHandle h s.handles with
  | some _ => (.error (.valueErr .handleCollision), s)
  | none => (.ok (), { s with handles := s.handles ++ [(h, c)] })

/-- `_reset`: archive the current (non-empty) handle table, clear it and
rebase the handle counter. -/
def resetFn (s : PState) : PState :=
  { s with
    handleMaps := if s.handles.isEmpty then s.handleMaps
                  else s.handleMaps ++ [s.handles]
    handles := []
    currentHandle := BASE_REFERENCE_IDX }

def resetM : M Unit := fun s => (.ok (), resetFn s)

/-- The end-of-`run` archival (`if self.__handles: ... append(copy)`). -/
def archiveM : M Unit := fun s =>
  (.ok (), { s with handleMaps := if s.handles.isEmpty then s.handleMaps
                                  else s.handleMaps ++ [s.handles] })

/-- `_do_reference`: read a (signed) 32-bit handle and resolve it. -/
def doReferenceM : M JContent := mbind readInt fun h => fun s =>
  if h < 0 then (.error (.valueErr .unknownHandle), s)
  else
    match lookupHandle h.toNat s.handles with
    | some c => (.ok c, s)
    | none => (.error (.valueErr .unknownHandle), s)

/-! ## Non-recursive readers

`_read_new_string`, `_do_block_data`, `_do_null` and the field list of
`_do_classdesc` never re-enter the tag dispatch, so they are plain
definitions. -/

/-- `_read_new_string(type_code)`: a string is a back-reference or a new
(long) string published under a fresh handle.  A `TC_LONGSTRING` length
must lie in `[0, 2^31 - 1]`; a small long-string is only warned about.
A tag other than the three string-related ones leaves the Python local
`length` unbound (`UnboundLocalError`). -/
def readNewStringM (typeCode : Nat) : M JString :=
  if typeCode = TC_REFERENCE then
    mbind doReferenceM fun prev =>
      match prev with
      | .jstring js => mpure js
      | _ => mthrow (.valueErr .notAStringReference)
  else
    mbind newHandle fun handle =>
    mbind
      (if typeCode = TC_STRING then
        mbind readUShort fun n => mpure (Int.ofNat n)
       else if typeCode = TC_LONGSTRING then
        mbind readLong fun n =>
          if n < 0 ∨ n > 2147483647 then
            mthrow (.valueErr .invalidStringLength)
          else mpure n
       else mthrow .unboundLocal) fun length =>
    mbind (fdRead length.toNat) fun data =>
    mbind (setHandle handle (.jstring ⟨handle, data⟩)) fun _ =>
    mpure ⟨handle, data⟩

/-- `_do_block_data(type_code)`: length-prefixed raw bytes. -/
def doBlockDataM (typeCode : Nat) : M JContent :=
  mbind
    (if typeCode = TC_BLOCKDATA then
      mbind readUByte fun n => mpure (Int.ofNat n)
     else if typeCode = TC_BLOCKDATALONG then readInt
     else mthrow (.valueErr .badBlockDataType)) fun size =>
  if size < 0 then mthrow (.valueErr .negativeBlockSize)
  else mbind (fdRead size.toNat) fun data => mpure (.blockData data)

/-- The declared-field loop of `_do_classdesc` (`TC_CLASSDESC` branch):
primitive types record name only; object/array types read the name and
then a string (new or reference) carrying the JVM type signature. -/
def readFieldsM : Nat → List JField → M (List JField)
  | 0, acc => mpure acc
  | n + 1, acc =>
      mbind readUByte fun ftByte =>
      if ftByte ∈ PRIMITIVE_TYPES then
        mbind readUTF fun fieldName =>
        match fieldTypeOf ftByte with
        | some ft => readFieldsM n (acc ++ [⟨ft, fieldName, none⟩])
        | none => mthrow .internalErr
      else if ftByte = TYPE_OBJECT ∨ ftByte = TYPE_ARRAY then
        mbind readUTF fun fieldName =>
        mbind readUByte fun strTypeCode =>
        mbind (readNewStringM strTypeCode) fun className =>
        match fieldTypeOf ftByte with
        | some ft => readFieldsM n (acc ++ [⟨ft, fieldName, some className⟩])
        | none => mthrow .internalErr
      else mthrow (.valueErr .invalidFieldTypeChar)

/-- The interface-name loop of the `TC_PROXYCLASSDESC` branch. -/
def readUTFsM : Nat → List (List Nat) → M (List (List Nat))
  | 0, acc => mpure acc
  | n + 1, acc => mbind readUTF fun u => readUTFsM n (acc ++ [u])

/-! ## The recursive dispatcher

The two source files are identical except for the tail of `_do_enum`;
`EnumMode` selects the variant.  `.bindString` is
`deserialize/core.py` (binds the constant-name string under the new
handle); `.bindEnum` is `v2/core.py` (binds the enum object);
`.abort` raises the distinguished `enumHit` error at the entry of the
enum handler and is used to express "the parse never dispatches an ENUM
tag". -/

inductive EnumMode where
  | bindString | bindEnum | abort
deriving DecidableEq, Repr

/-- The mutually recursive procedures of `JavaStreamParser`, defunction-
alised so the whole dispatcher is a single fuel-indexed function. -/
inductive Job where
  | runMain
  | runLoop (acc : List (Option JContent))
  | readContent (typeCode : Nat) (blockData : Bool)
  | readClassdesc
  | doClassdesc (typeCode : Nat) (mustBeNew : Bool)
  | readAnnotations (acc : List (Option JContent))
  | doObject
  | readClassData (inst : JInstance)
  | classDataLoop (rest : List JClassDesc)
      (allData : List (JClassDesc × List (JField × JValue)))
      (annots : List (JClassDesc × List (Option JContent)))
  | fieldValsLoop (fields : List JField) (acc : List (JField × JValue))
  | readFieldValue (ft : FieldType)
  | doArray
  | arrayValsLoop (ft : FieldType) (n : Nat) (acc : List JValue)
  | doEnum
  | doClass
  | doException

/-- Result values of the defunctionalised procedures. -/
inductive JOut where
  | contents (cs : List (Option JContent))
  | contentO (c : Option JContent)
  | desc (cd : Option JClassDesc)
  | instanceR (i : JInstance)
  | classData (allData : List (JClassDesc × List (JField × JValue)))
      (annots : List (JClassDesc × List (Option JContent)))
  | fieldVals (vs : List (JField × JValue))
  | value (v : JValue)
  | values (vs : List JValue)

def expectContentO : JOut → M (Option JContent)
  | .contentO c => mpure c
  | _ => mthrow .internalErr

def expectDesc : JOut → M (Option JClassDesc)
  | .desc cd => mpure cd
  | _ => mthrow .internalErr

def expectContents : JOut → M (List (Option JContent))
  | .contents cs => mpure cs
  | _ => mthrow .internalErr

def expectInstance : JOut → M JInstance
  | .instanceR i => mpure i
  | _ => mthrow .internalErr

def expectClassData :
    JOut → M (List (JClassDesc × List (JField × JValue)) ×
              List (JClassDesc × List (Option JContent)))
  | .classData d a => mpure (d, a)
  | _ => mthrow .internalErr

def expectFieldVals : JOut → M (List (JField × JValue))
  | .fieldVals vs => mpure vs
  | _ => mthrow .internalErr

def expectValue : JOut → M JValue
  | .value v => mpure v
  | _ => mthrow .internalErr

/-- A registered tag handler: either one of the recursive procedures, or
one of the non-recursive ones (`_read_new_string`, `_do_reference`,
`_do_null`, `_do_block_data`). -/
inductive Handler where
  | hjob (j : Job)
  | hstring (tc : Nat)
  | href
  | hnull
  | hblock (tc : Nat)

/-- The handler table `__type_code_handlers` (tag to handler).  The
string, class-descriptor and block-data handlers receive the tag, as in
the source. -/
def handlerFor (tc : Nat) : Option Handler :=
  if tc = TC_OBJECT then some (.hjob .doObject)
  else if tc = TC_CLASS then some (.hjob .doClass)
  else if tc = TC_ARRAY then some (.hjob .doArray)
  else if tc = TC_STRING then some (.hstring tc)
  else if tc = TC_LONGSTRING then some (.hstring tc)
  else if tc = TC_ENUM then some (.hjob .doEnum)
  else if tc = TC_CLASSDESC then some (.hjob (.doClassdesc tc false))
  else if tc = TC_PROXYCLASSDESC then some (.hjob (.doClassdesc tc false))
  else if tc = TC_REFERENCE then some .href
  else if tc = TC_NULL then some .hnull
  else if tc = TC_EXCEPTION then some (.hjob .doException)
  else if tc = TC_BLOCKDATA then some (.hblock tc)
  else if tc = TC_BLOCKDATALONG then some (.hblock tc)
  else none

/-- Repackage a recursive handler's `JOut` as the `ParsedJavaContent`
(or `None`) it stands for.  In the source every handler returns a
content value directly; the repackaging is an artifact of the
defunctionalised return type. -/
def joutToContent : JOut → M (Option JContent)
  | .contentO c => mpure c
  | .desc (some cd) => mpure (some (.classDesc cd))
  | .desc none => mpure none
  | _ => mthrow .internalErr

/-- Invocation of a registered handler (`handler(type_code)` inside
`_read_content`), with the recursive dispatch abstracted as `recur`. -/
def handlerRun (recur : Job → M JOut) : Handler → M (Option JContent)
  | .hjob hj => mbind (recur hj) joutToContent
  | .hstring tc => mbind (readNewStringM tc) fun js => mpure (some (.jstring js))
  | .href => mbind doReferenceM fun c => mpure (some c)
  | .hnull => mpure none
  | .hblock tc => mbind (doBlockDataM tc) fun c => mpure (some c)

/-- The recursive descent of `JavaStreamParser`, embedded as a single
fuel-indexed interpreter over `Job`.  The parser is constructed with the
empty transformer list, so `_create_instance` always yields the generic
`JavaInstance` carrier, whose `load_from_instance` hook is a no-op
returning `True` and whose `load_from_blockdata` hook returns `False`
(both modelled from the spec, section 4.12, as the `beans` module is not
under `src/`).  Running out of fuel raises the artificial `fuelOut`
error; every theorem below either supplies ample fuel or quantifies over
it. -/
def execBody (recur : EnumMode → Job → M JOut) (em : EnumMode)
    (j : Job) : M JOut :=
    match j with
    | .runMain =>
        mbind readUShort fun magic =>
        if magic ≠ STREAM_MAGIC then mthrow (.valueErr .invalidMagic) else
        mbind readUShort fun version =>
        if version ≠ STREAM_VERSION then mthrow (.valueErr .invalidVersion) else
        mbind resetM fun _ =>
        mbind (recur em (.runLoop [])) fun out =>
        mbind (expectContents out) fun cs =>
        -- `content.validate()` on each handle-table value: modelled from
        -- the spec as a side-effect-free check (the `beans` module is not
        -- under `src/`); then the final snapshot archive.
        mbind archiveM fun _ =>
        mpure (.contents cs)
    | .runLoop acc =>
        mbind tellM fun start =>
        mbind (catchEOF (mbind readUByte fun b => mpure (some b))
                        (mpure none)) fun otc =>
        match otc with
        | none => mpure (.contents acc)
        | some tc =>
          if tc = TC_RESET then
            mbind resetM fun _ => recur em (.runLoop acc)
          else
            mbind (recur em (.readContent tc true)) fun out =>
            mbind (expectContentO out) fun c =>
            mbind (match c with
                   | some c' =>
                     if c'.isException then
                       mbind tellM fun stop => fun s =>
                         (.ok (some (.excState c'
                            (rawSlice s.input start stop))), s)
                     else mpure c
                   | none => mpure c) fun c2 =>
            recur em (.runLoop (acc ++ [c2]))
    | .readContent tc bd =>
        if bd = false ∧ (tc = TC_BLOCKDATA ∨ tc = TC_BLOCKDATALONG) then
          mthrow (.valueErr .blockDataNotAllowed)
        else
          match handlerFor tc with
          | none => mthrow (.valueErr .unknownTag)
          | some h =>
            mbind
              (catchExc (handlerRun (recur em) h)
                (fun c => mpure (some c)))
              fun c => mpure (.contentO c)
    | .readClassdesc =>
        mbind readUByte fun tc => recur em (.doClassdesc tc false)
    | .doClassdesc tc mustBeNew =>
        if tc = TC_CLASSDESC then
          mbind readUTF fun name =>
          mbind readLong fun svuid =>
          mbind newHandle fun handle =>
          mbind readUByte fun descFlags =>
          mbind readShort fun nbFields =>
          if nbFields < 0 then mthrow (.valueErr .invalidFieldCount) else
          mbind (readFieldsM nbFields.toNat []) fun fields =>
          mbind (recur em (.readAnnotations [])) fun aout =>
          mbind (expectContents aout) fun anns =>
          mbind (recur em .readClassdesc) fun sout =>
          mbind (expectDesc sout) fun sup =>
          let cd : JClassDesc :=
            .mk .normalClass name svuid handle descFlags fields [] anns sup []
          mbind (setHandle handle (.classDesc cd)) fun _ =>
          mpure (.desc (some cd))
        else if tc = TC_NULL then
          if mustBeNew then mthrow (.valueErr .nullMustBeNew)
          else mpure (.desc none)
        else if tc = TC_REFERENCE then
          if mustBeNew then mthrow (.valueErr .referenceMustBeNew)
          else
            mbind doReferenceM fun prev =>
            match prev with
            | .classDesc cd => mpure (.desc (some cd))
            | _ => mthrow (.valueErr .notAClassDesc)
        else if tc = TC_PROXYCLASSDESC then
          mbind newHandle fun handle =>
          mbind readInt fun nbIfaces =>
          mbind (readUTFsM nbIfaces.toNat []) fun ifaces =>
          mbind (recur em (.readAnnotations [])) fun aout =>
          mbind (expectContents aout) fun anns =>
          mbind (recur em .readClassdesc) fun sout =>
          mbind (expectDesc sout) fun sup =>
          -- name, svuid and flags keep the bean's defaults for a proxy
          -- descriptor (modelled from the spec, section 4.5)
          let cd : JClassDesc :=
            .mk .proxyClass [] 0 handle 0 [] ifaces anns sup []
          mbind (setHandle handle (.classDesc cd)) fun _ =>
          mpure (.desc (some cd))
        else mthrow (.valueErr .badClassDescTag)
    | .readAnnotations acc =>
        mbind readUByte fun tc =>
        if tc = TC_ENDBLOCKDATA then mpure (.contents acc)
        else if tc = TC_RESET then
          mbind resetM fun _ => recur em (.readAnnotations acc)
        else
          mbind (recur em (.readContent tc true)) fun out =>
          mbind (expectContentO out) fun c =>
          match c with
          | some c' =>
            if c'.isException then mthrow (.exceptionRead c')
            else recur em (.readAnnotations (acc ++ [some c']))
          | none => recur em (.readAnnotations (acc ++ [none]))
    | .doObject =>
        mbind (recur em .readClassdesc) fun out =>
        mbind (expectDesc out) fun cdO =>
        mbind newHandle fun handle =>
        -- `_create_instance` with the empty transformer list: the
        -- generic carrier, with classdesc and handle assigned
        let inst : JInstance := .mk handle cdO [] [] false
        mbind (setHandle handle (.instance inst)) fun _ =>
        mbind (recur em (.readClassData inst)) fun iout =>
        mbind (expectInstance iout) fun inst' =>
        mpure (.contentO (some (.instance inst')))
    | .readClassData inst =>
        -- `instance.classdesc.get_hierarchy(...)`: attribute access on
        -- `None` raises
        match inst.classdesc with
        | none => mthrow .attrErr
        | some cd =>
          mbind (recur em (.classDataLoop cd.hierarchy [] [])) fun out =>
          mbind (expectClassData out) fun d =>
          -- field data and annotations are stored on the instance; the
          -- generic carrier's `load_from_instance` is a no-op
          mpure (.instanceR (inst.withData d.1 d.2))
    | .classDataLoop rest allData annots =>
        match rest with
        | [] => mpure (.classData allData annots)
        | cd :: rest' =>
          if cd.descFlags.land SC_SERIALIZABLE ≠ 0 then
            if cd.descFlags.land SC_EXTERNALIZABLE ≠ 0 then
              mthrow (.valueErr .serializableAndExternalizable)
            else
              mbind (recur em (.fieldValsLoop cd.fields [])) fun vout =>
              mbind (expectFieldVals vout) fun vals =>
              if cd.descFlags.land SC_WRITE_METHOD ≠ 0 then
                if cd.descFlags.land SC_ENUM ≠ 0 then
                  mthrow (.valueErr .enumAndWriteMethod)
                else
                  mbind (recur em (.readAnnotations [])) fun aout =>
                  mbind (expectContents aout) fun anns =>
                  recur em (.classDataLoop rest'
                    (allData ++ [(cd, vals)]) (annots ++ [(cd, anns)]))
              else
                recur em (.classDataLoop rest'
                  (allData ++ [(cd, vals)]) annots)
          else if cd.descFlags.land SC_EXTERNALIZABLE ≠ 0 then
            if cd.descFlags.land SC_SERIALIZABLE ≠ 0 then
              mthrow (.valueErr .serializableAndExternalizable)
            else if cd.descFlags.land SC_BLOCK_DATA ≠ 0 then
              -- the generic carrier's `load_from_blockdata` returns False
              mthrow (.valueErr .cannotInterpretExternalizable)
            else
              mbind (recur em (.readAnnotations [])) fun aout =>
              mbind (expectContents aout) fun anns =>
              recur em (.classDataLoop rest' allData (annots ++ [(cd, anns)]))
          else
            recur em (.classDataLoop rest' allData annots)
    | .fieldValsLoop fields acc =>
        match fields with
        | [] => mpure (.fieldVals acc)
        | fld :: rest =>
          mbind (recur em (.readFieldValue fld.ftype)) fun vout =>
          mbind (expectValue vout) fun v =>
          recur em (.fieldValsLoop rest (acc ++ [(fld, v)]))
    | .readFieldValue ft =>
        match ft with
        | .byte => mbind readSByte fun v => mpure (.value (.prim (.byte v)))
        | .char => mbind readChar fun v => mpure (.value (.prim (.char v)))
        | .double =>
          mbind (readExact 8) fun v => mpure (.value (.prim (.double v)))
        | .float =>
          mbind (readExact 4) fun v => mpure (.value (.prim (.float v)))
        | .int => mbind readInt fun v => mpure (.value (.prim (.int v)))
        | .long => mbind readLong fun v => mpure (.value (.prim (.long v)))
        | .short => mbind readShort fun v => mpure (.value (.prim (.short v)))
        | .boolean =>
          mbind readBool fun v => mpure (.value (.prim (.boolean v)))
        | .object | .array =>
          mbind readUByte fun sub =>
          if ft = .array ∧ sub ≠ TC_ARRAY then
            mthrow (.valueErr .arrayTypeMismatch)
          else
            mbind (recur em (.readContent sub false)) fun out =>
            mbind (expectContentO out) fun c =>
            match c with
            | some c' =>
              if c'.isException then mthrow (.exceptionRead c')
              else mpure (.value (.content (some c')))
            | none => mpure (.value (.content none))
    | .doArray =>
        mbind (recur em .readClassdesc) fun out =>
        mbind (expectDesc out) fun cdO =>
        mbind newHandle fun handle =>
        match cdO with
        | none => mthrow .attrErr   -- `len(cd.name)` with `cd = None`
        | some cd =>
          if cd.name.length < 2 then mthrow (.valueErr .invalidArrayName)
          else
            match cd.name.get? 1 with
            | none => mthrow .internalErr
            | some tbyte =>
              match fieldTypeOf tbyte with
              | none => mthrow (.valueErr .fieldTypeValue)
              | some ft =>
                mbind readInt fun size =>
                if size < 0 then mthrow (.valueErr .invalidArraySize)
                else
                  mbind (recur em (.arrayValsLoop ft size.toNat []))
                    fun vout =>
                  match vout with
                  | .values vs =>
                    -- the source returns the array WITHOUT `_set_handle`
                    mpure (.contentO (some (.jarray handle cd ft vs)))
                  | _ => mthrow .internalErr
    | .arrayValsLoop ft n acc =>
        match n with
        | 0 => mpure (.values acc)
        | n' + 1 =>
          mbind (recur em (.readFieldValue ft)) fun vout =>
          mbind (expectValue vout) fun v =>
          recur em (.arrayValsLoop ft n' (acc ++ [v]))
    | .doEnum =>
        match em with
        | .abort => mthrow .enumHit
        | _ =>
          mbind (recur em .readClassdesc) fun out =>
          mbind (expectDesc out) fun cdO =>
          match cdO with
          | none => mthrow (.valueErr .enumNullDesc)
          | some cd =>
            mbind newHandle fun handle =>
            mbind readUByte fun sub =>
            mbind (readNewStringM sub) fun enumStr =>
            let cd' := cd.addEnumConstant enumStr.data
            match em with
            | .bindString =>
              -- deserialize/core.py: the constant-name string is stored
              -- under the enum's handle
              mbind (setHandle handle (.jstring enumStr)) fun _ =>
              mpure (.contentO (some (.jenum handle cd' enumStr)))
            | _ =>
              -- v2/core.py: the enum object is stored under the handle
              mbind (setHandle handle (.jenum handle cd' enumStr)) fun _ =>
              mpure (.contentO (some (.jenum handle cd' enumStr)))
    | .doClass =>
        mbind (recur em .readClassdesc) fun out =>
        mbind (expectDesc out) fun cdO =>
        mbind newHandle fun handle =>
        mbind (setHandle handle (.classObj handle cdO)) fun _ =>
        mpure (.contentO (some (.classObj handle cdO)))
    | .doException =>
        mbind resetM fun _ =>
        mbind readUByte fun tc =>
        if tc = TC_RESET then mthrow (.valueErr .resetInException)
        else
          mbind (recur em (.readContent tc false)) fun out =>
          mbind (expectContentO out) fun c =>
          match c with
          | none => mthrow (.valueErr .nullException)
          | some c' =>
            match c' with
            | .instance i =>
              if i.isException then mthrow (.exceptionRead (.instance i))
              else
                mbind resetM fun _ =>
                mpure (.contentO (some (.instance i.setException)))
            | _ => mthrow (.valueErr .exceptionNotInstance)

/-- The fuel-indexed tie of the recursive knot.  `Nat.rec` is used
directly (rather than the equation compiler) so that a recursive call
reduces in one step to `execBody (exec f)`, which keeps definitional
evaluation of concrete streams linear. -/
def exec (fuel : Nat) : EnumMode → Job → M JOut :=
  Nat.rec (motive := fun _ => EnumMode → Job → M JOut)
    (fun _ _ => mthrow .fuelOut)
    (fun _ recur => execBody recur)
    fuel

theorem exec_zero (em : EnumMode) (j : Job) :
    exec 0 em j = mthrow .fuelOut := rfl

theorem exec_succ (f : Nat) (em : EnumMode) (j : Job) :
    exec (f + 1) em j = execBody (exec f) em j := rfl

/-- Initial parser state over an input byte string. -/
def initState (input : List Nat) : PState :=
  { input := input, pos := 0, handles := [], handleMaps := [],
    currentHandle := BASE_REFERENCE_IDX }

/-- `JavaStreamParser(fd, []).run()` of `deserialize/core.py`. -/
def runDeserialize (fuel : Nat) (input : List Nat) :
    Except PErr JOut × PState :=
  exec fuel .bindString .runMain (initState input)

/-- `JavaStreamParser(fd, []).run()` of `v2/core.py`. -/
def runV2 (fuel : Nat) (input : List Nat) : Except PErr JOut × PState :=
  exec fuel .bindEnum .runMain (initState input)

def isOkE {α : Type} : Except PErr α → Bool
  | .ok _ => true
  | .error _ => false

/-! ## Default object transformers (`transformers.py`) -/

/-- ASCII bytes of a Java class name, for comparison with the raw name
bytes carried by a descriptor. -/
def strBytes (s : String) : List Nat := s.toList.map Char.toNat

/-- `JavaMap.HANDLED_CLASSES`. -/
def javaMapHandledClasses : List (List Nat) :=
  [strBytes "java.util.HashMap", strBytes "java.util.TreeMap"]

/-- `zip(*[iter(xs)] * 2)`: consecutive two-by-two pairing; an odd
trailing element is dropped. -/
def pairUp {α : Type} : List α → List (α × α)
  | a :: b :: t => (a, b) :: pairUp t
  | _ => []

/-- `JavaMap.load_from_instance`: scan `instance.annotations.items()` for
an entry whose descriptor name is a handled map class; pair its
annotation elements after the first two-by-two into the mapping (Python
assigns `self[key] = value` per pair; the assignment sequence is kept as
a list) and return `True`; with no matching entry return `False`. -/
def javaMapLoadFromInstance :
    List (JClassDesc × List (Option JContent)) →
    List (Option JContent × Option JContent) × Bool
  | [] => ([], false)
  | (cd, anns) :: rest =>
      if cd.name ∈ javaMapHandledClasses then (pairUp (anns.drop 1), true)
      else javaMapLoadFromInstance rest

/-- Python tuple-unpacking `a, b = d` of a dict `d` iterates the KEYS of
`d` and succeeds exactly when there are two of them; any other size
raises (`ValueError`/`TypeError`). -/
def pyUnpack2 {κ ν : Type} : List (κ × ν) → Except Unit (κ × κ)
  | [k1, k2] => .ok (k1.1, k2.1)
  | _ => .error ()

/-- `JavaPrimitiveClass.load_from_instance`, as written in the source:
`for field, value in instance.field_data.values()` unpacks each inner
field dict as a pair, so `field` and `value` are both `JavaField` KEYS
of the inner dict (when it has exactly two; otherwise the unpacking
raises).  On a key named `value` the carrier's `value` attribute is set
to the second key and `True` is returned. -/
def javaPrimitiveLoadFromInstance :
    List (JClassDesc × List (JField × JValue)) →
    Except Unit (Option JField × Bool)
  | [] => .ok (none, false)
  | (_, inner) :: rest =>
      match pyUnpack2 inner with
      | .error () => .error ()
      | .ok (f, v) =>
          if f.name = strBytes "value" then .ok (some v, true)
          else javaPrimitiveLoadFromInstance rest

/-! ## Lemmas about the helpers -/

theorem mpure_apply {α : Type} (a : α) (s : PState) :
    mpure a s = (.ok a, s) := rfl

theorem mthrow_apply {α : Type} (e : PErr) (s : PState) :
    (mthrow e : M α) s = (.error e, s) := rfl

theorem mbind_apply {α β : Type} (x : M α) (k : α → M β) (s : PState) :
    mbind x k s =
      match x s with
      | (.ok a, s') => k a s'
      | (.error e, s') => (.error e, s') := rfl

theorem catchEOF_apply {α : Type} (x : M α) (h : M α) (s : PState) :
    catchEOF x h s =
      match x s with
      | (.error .eof, s') => h s'
      | r => r := rfl

theorem catchExc_apply {α : Type} (x : M α) (h : JContent → M α)
    (s : PState) :
    catchExc x h s =
      match x s with
      | (.error (.exceptionRead c), s') => h c s'
      | r => r := rfl

theorem newHandle_apply (s : PState) :
    newHandle s = (.ok s.currentHandle,
      { s with currentHandle := s.currentHandle + 1 }) := rfl

theorem resetM_apply (s : PState) : resetM s = (.ok (), resetFn s) := rfl

theorem tellM_apply (s : PState) : tellM s = (.ok s.pos, s) := rfl

theorem setHandle_apply (h : Nat) (c : JContent) (s : PState) :
    setHandle h c s =
      match lookupHandle h s.handles with
      | some _ => (.error (.valueErr .handleCollision), s)
      | none => (.ok (), { s with handles := s.handles ++ [(h, c)] }) := rfl

theorem readExact_apply (n : Nat) (s : PState) :
    readExact n s =
      if ((s.input.drop s.pos).take n).length = n then
        (.ok ((s.input.drop s.pos).take n), { s with pos := s.pos + n })
      else (.error .eof, s) := rfl

theorem fdRead_apply (n : Nat) (s : PState) :
    fdRead n s =
      (.ok ((s.input.drop s.pos).take n),
       { s with pos := s.pos + ((s.input.drop s.pos).take n).length }) := rfl

theorem pairUp_length {α : Type} : ∀ xs : List α,
    (pairUp xs).length = xs.length / 2
  | [] => by simp [pairUp]
  | [_] => by simp [pairUp]
  | a :: b :: t => by
      simp only [pairUp, List.length_cons, pairUp_length t]
      omega

theorem pairUp_odd_dropLast {α : Type} : ∀ xs : List α,
    xs.length % 2 = 1 → pairUp xs = pairUp xs.dropLast
  | [], h => by simp at h
  | [_], _ => rfl
  | a :: b :: t, h => by
      cases t with
      | nil => simp at h
      | cons c t' =>
          have ih := pairUp_odd_dropLast (c :: t') (by
            simp only [List.length_cons] at h ⊢
            omega)
          simp only [pairUp, List.dropLast, ih]

theorem lookupHandle_append_self (h : Nat) (c : JContent)
    (hs : List (Nat × JContent)) (hn : lookupHandle h hs = none) :
    lookupHandle h (hs ++ [(h, c)]) = some c := by
  have hfind : hs.find? (fun p => p.1 = h) = none := by
    cases hf : hs.find? (fun p => p.1 = h) with
    | none => rfl
    | some x => rw [lookupHandle, hf] at hn; simp at hn
  rw [lookupHandle, List.find?_append, hfind]
  simp [List.find?]

/-! ## Claim C4 — `JavaPrimitiveClass.load_from_instance` -/

/-- The recorded field data of a parsed `java.lang.Integer` instance
with its single field `value = 42`. -/
def c4IntegerDesc : JClassDesc :=
  .mk .normalClass (strBytes "java.lang.Integer") 1362692638446282912
    BASE_REFERENCE_IDX SC_SERIALIZABLE
    [⟨.int, strBytes "value", none⟩] [] [] none []

def c4FieldData : List (JClassDesc × List (JField × JValue)) :=
  [(c4IntegerDesc, [(⟨.int, strBytes "value", none⟩, .prim (.int 42))])]

/-- A two-field variant whose first inner key is named `value`. -/
def c4TwoFieldData : List (JClassDesc × List (JField × JValue)) :=
  [(c4IntegerDesc,
    [(⟨.int, strBytes "value", none⟩, .prim (.int 42)),
     (⟨.int, strBytes "extra", none⟩, .prim (.int 7))])]

/-- C4: the boxed-primitive transformer never extracts the recorded
`value` field.  On the actual single-field layout of
`java.lang.Boolean` / `Integer` / `Long` the iteration
`for field, value in instance.field_data.values()` tries to unpack a
one-entry dict into two names and raises; on a two-field layout it
"succeeds" but binds the second dict KEY (a `JavaField`), not the
recorded value.  In neither case does the carrier's `value` attribute
become the recorded field value as the claim (and the spec's intent)
requires. -/
theorem c4_javaPrimitive_value_never_extracted :
    javaPrimitiveLoadFromInstance c4FieldData = .error () ∧
    javaPrimitiveLoadFromInstance c4TwoFieldData =
      .ok (some ⟨.int, strBytes "extra", none⟩, true) := by
  exact ⟨rfl, rfl⟩

/-! ## Claim C5 — session reset semantics -/

/-- C5 (amended): a session reset always clears the handle table and
returns the counter to `0x7E0000`, but it archives the prior table only
when that table was non-empty; a reset of an empty table (such as the
one at `run` entry) archives nothing. -/
theorem c5_reset_clears_rebases_archives_nonempty (s : PState) :
    (resetFn s).handles = [] ∧
    (resetFn s).currentHandle = BASE_REFERENCE_IDX ∧
    (s.handles.isEmpty = true → (resetFn s).handleMaps = s.handleMaps) ∧
    (s.handles.isEmpty = false →
      (resetFn s).handleMaps = s.handleMaps ++ [s.handles]) := by
  refine ⟨rfl, rfl, fun h => ?_, fun h => ?_⟩ <;> simp [resetFn, h]

/-- A non-empty-table state used to witness the archiving conjunct. -/
def c5NonEmptyState : PState :=
  { input := [], pos := 0,
    handles := [(BASE_REFERENCE_IDX, .blockData [1])],
    handleMaps := [], currentHandle := BASE_REFERENCE_IDX + 1 }

theorem c5_reset_witness :
    (resetFn c5NonEmptyState).handleMaps =
      [[(BASE_REFERENCE_IDX, .blockData [1])]] ∧
    (resetFn c5NonEmptyState).handles = [] := by
  have h := c5_reset_clears_rebases_archives_nonempty c5NonEmptyState
  exact ⟨h.2.2.2 rfl, h.1⟩

def c5HeaderOnly : List Nat := [0xAC, 0xED, 0x00, 0x05]

/-- C5 (counterexample): a run over a header-only stream performs
exactly the `run`-entry session reset (and the end-of-run conditional
archive), yet no snapshot at all is archived: the entry reset found an
empty table and skipped the archive, contrary to the claim that every
reset archives a snapshot. -/
theorem c5_counterexample_entry_reset_archives_nothing :
    (runDeserialize 5 c5HeaderOnly).1 = .ok (.contents []) ∧
    (runDeserialize 5 c5HeaderOnly).2.handleMaps = [] ∧
    (resetFn (initState c5HeaderOnly)).handleMaps = [] := by
  exact ⟨rfl, rfl, rfl⟩

/-! ## Claim C10 — `JavaMap.load_from_instance` pairing -/

/-- C10: when the HashMap/TreeMap transformer post-processes an instance
whose annotation table starts with a handled map class, the annotation
elements after the first are paired two-by-two into the mapping, the
method returns `True`, and an odd trailing element is silently dropped
(the pair count is `⌊n/2⌋` and the pairing ignores the last element of
an odd-length list); no error path exists. -/
theorem c10_javaMap_pairs_two_by_two (cd : JClassDesc)
    (anns : List (Option JContent))
    (rest : List (JClassDesc × List (Option JContent)))
    (hname : cd.name ∈ javaMapHandledClasses) :
    javaMapLoadFromInstance ((cd, anns) :: rest) =
      (pairUp (anns.drop 1), true) ∧
    (pairUp (anns.drop 1)).length = (anns.drop 1).length / 2 ∧
    ((anns.drop 1).length % 2 = 1 →
      pairUp (anns.drop 1) = pairUp (anns.drop 1).dropLast) := by
  refine ⟨?_, pairUp_length _, pairUp_odd_dropLast _⟩
  simp [javaMapLoadFromInstance, hname]

def c10HashMapDesc : JClassDesc :=
  .mk .normalClass (strBytes "java.util.HashMap") 362498820763181265
    BASE_REFERENCE_IDX (SC_SERIALIZABLE + SC_WRITE_METHOD) [] [] [] none []

/-- Annotation list: capacity block-data followed by three elements —
an odd tail, whose last element is dropped. -/
def c10Annotations : List (Option JContent) :=
  [some (.blockData [0, 0, 0, 16]), some (.blockData [1]),
   some (.blockData [2]), some (.blockData [3])]

theorem c10_javaMap_witness :
    javaMapLoadFromInstance [(c10HashMapDesc, c10Annotations)] =
      ([(some (.blockData [1]), some (.blockData [2]))], true) := by
  have h := c10_javaMap_pairs_two_by_two c10HashMapDesc c10Annotations []
    (by simp [javaMapHandledClasses, c10HashMapDesc, JClassDesc.name])
  exact h.1

/-! ## Claim C9 — LONGSTRING length validation -/

/-- The signed 64-bit length read by the `TC_LONGSTRING` branch at the
current position (after the handle allocation, which reads nothing). -/
def longLenAt (s : PState) : Int :=
  toSigned 64 (beU ((s.input.drop s.pos).take 8))

/-- The bytes `fd.read(length)` then yields. -/
def longDataAt (s : PState) : List Nat :=
  (s.input.drop (s.pos + 8)).take (longLenAt s).toNat

/-- C9: with the 8 length bytes available and a fresh handle (as in any
reachable parser state), `_read_new_string` on `TC_LONGSTRING` fails
exactly when the signed 64-bit length is negative or exceeds `2^31 - 1`;
any in-range length — including one below 65536, which only logs a
warning — is accepted and yields a `JavaString` bound in the handle
table under the newly allocated handle. -/
theorem c9_longstring_range_check (s : PState)
    (h8 : ((s.input.drop s.pos).take 8).length = 8)
    (hfresh : lookupHandle s.currentHandle s.handles = none) :
    ((longLenAt s < 0 ∨ longLenAt s > 2147483647) →
      readNewStringM TC_LONGSTRING s =
        (.error (.valueErr .invalidStringLength),
         { s with pos := s.pos + 8, currentHandle := s.currentHandle + 1 }))
    ∧ (¬(longLenAt s < 0 ∨ longLenAt s > 2147483647) →
      readNewStringM TC_LONGSTRING s =
        (.ok ⟨s.currentHandle, longDataAt s⟩,
         { s with pos := s.pos + 8 + (longDataAt s).length,
                  currentHandle := s.currentHandle + 1,
                  handles := s.handles ++
                    [(s.currentHandle,
                      .jstring ⟨s.currentHandle, longDataAt s⟩)] })) := by
  have hne1 : ¬(TC_LONGSTRING = TC_REFERENCE) := by decide
  have hne2 : ¬(TC_LONGSTRING = TC_STRING) := by decide
  simp only [longLenAt] at *
  constructor
  · intro hbad
    simp only [readNewStringM, if_neg hne1, if_neg hne2, if_pos rfl,
      if_true, mbind_apply, newHandle_apply, mpure_apply, mthrow_apply,
      readLong, readExact_apply]
    rw [if_pos h8]
    simp only [mpure_apply]
    rw [if_pos hbad]
    rfl
  · intro hgood
    simp only [readNewStringM, if_neg hne1, if_neg hne2, if_pos rfl,
      if_true, mbind_apply, newHandle_apply, mpure_apply, mthrow_apply,
      readLong, readExact_apply]
    rw [if_pos h8]
    simp only [mpure_apply]
    rw [if_neg hgood]
    simp only [mpure_apply, mbind_apply, fdRead_apply, setHandle_apply]
    rw [show lookupHandle s.currentHandle s.handles = none from hfresh]
    rfl

def c9WitnessState : PState := initState [0, 0, 0, 0, 0, 0, 0, 2, 65, 66]

theorem c9_longstring_witness :
    readNewStringM TC_LONGSTRING c9WitnessState =
      (.ok ⟨BASE_REFERENCE_IDX, [65, 66]⟩,
       { c9WitnessState with
           pos := 10
           currentHandle := BASE_REFERENCE_IDX + 1
           handles := [(BASE_REFERENCE_IDX,
                        .jstring ⟨BASE_REFERENCE_IDX, [65, 66]⟩)] }) := by
  have h := (c9_longstring_range_check c9WitnessState rfl rfl).2 (by decide)
  exact h

/-! ## Claim C8 — equivalence of the two parser variants on ENUM-free
input

The two source files are textually identical except for the tail of
`_do_enum`, so the embedded dispatcher is parametric in `EnumMode` and
the only mode-sensitive point is the `doEnum` job.  "The input contains
no ENUM tag" is expressed through the instrumented `.abort` mode, which
raises the distinguished `enumHit` error the moment the ENUM handler is
dispatched: a run that never produces `enumHit` under `.abort` never
dispatched an ENUM tag, and on such input the three modes coincide.
The congruence lemmas below push the no-`enumHit` hypothesis through
the monadic combinators. -/

theorem mbind_ok {α β : Type} {x : M α} {k : α → M β} {s s' : PState}
    {a : α} (h : x s = (.ok a, s')) : mbind x k s = k a s' := by
  rw [mbind_apply, h]

theorem mbind_err {α β : Type} {x : M α} {k : α → M β} {s s' : PState}
    {e : PErr} (h : x s = (.error e, s')) :
    mbind x k s = (.error e, s') := by
  rw [mbind_apply, h]

theorem catchEOF_ok {α : Type} {x k : M α} {s s' : PState} {a : α}
    (h : x s = (.ok a, s')) : catchEOF x k s = (.ok a, s') := by
  rw [catchEOF_apply, h]

theorem catchEOF_eof {α : Type} {x k : M α} {s s' : PState}
    (h : x s = (.error .eof, s')) : catchEOF x k s = k s' := by
  rw [catchEOF_apply, h]

theorem catchEOF_err {α : Type} {x k : M α} {s s' : PState} {e : PErr}
    (h : x s = (.error e, s')) (hne : e ≠ .eof) :
    catchEOF x k s = (.error e, s') := by
  rw [catchEOF_apply, h]
  cases e <;> first | rfl | exact absurd rfl hne

theorem catchExc_ok {α : Type} {x : M α} {k : JContent → M α}
    {s s' : PState} {a : α} (h : x s = (.ok a, s')) :
    catchExc x k s = (.ok a, s') := by
  rw [catchExc_apply, h]

theorem catchExc_exc {α : Type} {x : M α} {k : JContent → M α}
    {s s' : PState} {c : JContent}
    (h : x s = (.error (.exceptionRead c), s')) :
    catchExc x k s = k c s' := by
  rw [catchExc_apply, h]

theorem catchExc_err {α : Type} {x : M α} {k : JContent → M α}
    {s s' : PState} {e : PErr} (h : x s = (.error e, s'))
    (hne : ∀ c : JContent, e ≠ .exceptionRead c) :
    catchExc x k s = (.error e, s') := by
  rw [catchExc_apply, h]
  cases e <;> first | rfl | exact absurd rfl (hne _)

theorem err_fst_ne {α : Type} {e : PErr} {s : PState}
    (hne : e ≠ .enumHit) :
    (((Except.error e : Except PErr α), s)).1 ≠ .error .enumHit :=
  fun hc => hne (Except.error.inj hc)

theorem ok_fst_ne {α : Type} {a : α} {s : PState} :
    (((Except.ok a : Except PErr α), s)).1 ≠ .error .enumHit :=
  Except.noConfusion

theorem exc_ne_enumHit (c : JContent) :
    PErr.exceptionRead c ≠ PErr.enumHit := fun hc => PErr.noConfusion hc

theorem mbind_cong3 {α β : Type} {x₁ x₂ x₃ : M α} {k₁ k₂ k₃ : α → M β}
    {s : PState}
    (hx : (x₃ s).1 ≠ .error .enumHit → x₃ s = x₁ s ∧ x₃ s = x₂ s)
    (hk : ∀ (a : α) (s₀ : PState), (k₃ a s₀).1 ≠ .error .enumHit →
      k₃ a s₀ = k₁ a s₀ ∧ k₃ a s₀ = k₂ a s₀)
    (H : (mbind x₃ k₃ s).1 ≠ .error .enumHit) :
    mbind x₃ k₃ s = mbind x₁ k₁ s ∧ mbind x₃ k₃ s = mbind x₂ k₂ s := by
  rcases h3 : x₃ s with ⟨r3, s3⟩
  cases r3 with
  | error e =>
    rw [mbind_err h3] at H ⊢
    have hne : e ≠ PErr.enumHit := fun he => H (by rw [he])
    have hx' := hx (by rw [h3]; exact err_fst_ne hne)
    have h1 : x₁ s = (.error e, s3) := by rw [← hx'.1, h3]
    have h2 : x₂ s = (.error e, s3) := by rw [← hx'.2, h3]
    rw [mbind_err h1, mbind_err h2]
    exact ⟨rfl, rfl⟩
  | ok a =>
    rw [mbind_ok h3] at H ⊢
    have hx' := hx (by rw [h3]; exact ok_fst_ne)
    have h1 : x₁ s = (.ok a, s3) := by rw [← hx'.1, h3]
    have h2 : x₂ s = (.ok a, s3) := by rw [← hx'.2, h3]
    rw [mbind_ok h1, mbind_ok h2]
    exact hk a s3 H

theorem catchEOF_cong3 {α : Type} {x₁ x₂ x₃ : M α} {k₁ k₂ k₃ : M α}
    {s : PState}
    (hx : (x₃ s).1 ≠ .error .enumHit → x₃ s = x₁ s ∧ x₃ s = x₂ s)
    (hk : ∀ s₀ : PState, (k₃ s₀).1 ≠ .error .enumHit →
      k₃ s₀ = k₁ s₀ ∧ k₃ s₀ = k₂ s₀)
    (H : (catchEOF x₃ k₃ s).1 ≠ .error .enumHit) :
    catchEOF x₃ k₃ s = catchEOF x₁ k₁ s ∧
    catchEOF x₃ k₃ s = catchEOF x₂ k₂ s := by
  rcases h3 : x₃ s with ⟨r3, s3⟩
  cases r3 with
  | error e =>
    by_cases he : e = PErr.eof
    · subst he
      rw [catchEOF_eof h3] at H ⊢
      have hx' := hx (by rw [h3]; exact err_fst_ne (fun hc => PErr.noConfusion hc))
      have h1 : x₁ s = (.error .eof, s3) := by rw [← hx'.1, h3]
      have h2 : x₂ s = (.error .eof, s3) := by rw [← hx'.2, h3]
      rw [catchEOF_eof h1, catchEOF_eof h2]
      exact hk s3 H
    · rw [catchEOF_err h3 he] at H ⊢
      have hx' := hx (by rw [h3]; exact H)
      have h1 : x₁ s = (.error e, s3) := by rw [← hx'.1, h3]
      have h2 : x₂ s = (.error e, s3) := by rw [← hx'.2, h3]
      rw [catchEOF_err h1 he, catchEOF_err h2 he]
      exact ⟨rfl, rfl⟩
  | ok a =>
    rw [catchEOF_ok h3] at H ⊢
    have hx' := hx (by rw [h3]; exact ok_fst_ne)
    have h1 : x₁ s = (.ok a, s3) := by rw [← hx'.1, h3]
    have h2 : x₂ s = (.ok a, s3) := by rw [← hx'.2, h3]
    rw [catchEOF_ok h1, catchEOF_ok h2]
    exact ⟨rfl, rfl⟩

theorem catchExc_cong3 {α : Type} {x₁ x₂ x₃ : M α}
    {k₁ k₂ k₃ : JContent → M α} {s : PState}
    (hx : (x₃ s).1 ≠ .error .enumHit → x₃ s = x₁ s ∧ x₃ s = x₂ s)
    (hk : ∀ (c : JContent) (s₀ : PState),
      (k₃ c s₀).1 ≠ .error .enumHit →
      k₃ c s₀ = k₁ c s₀ ∧ k₃ c s₀ = k₂ c s₀)
    (H : (catchExc x₃ k₃ s).1 ≠ .error .enumHit) :
    catchExc x₃ k₃ s = catchExc x₁ k₁ s ∧
    catchExc x₃ k₃ s = catchExc x₂ k₂ s := by
  rcases h3 : x₃ s with ⟨r3, s3⟩
  cases r3 with
  | error e =>
    cases e with
    | exceptionRead c =>
      rw [catchExc_exc h3] at H ⊢
      have hx' := hx (by rw [h3]; exact err_fst_ne (exc_ne_enumHit c))
      have h1 : x₁ s = (.error (.exceptionRead c), s3) := by
        rw [← hx'.1, h3]
      have h2 : x₂ s = (.error (.exceptionRead c), s3) := by
        rw [← hx'.2, h3]
      rw [catchExc_exc h1, catchExc_exc h2]
      exact hk c s3 H
    | enumHit =>
      rw [catchExc_err h3 (fun c hc => PErr.noConfusion hc)] at H
      exact absurd rfl H
    | eof =>
      rw [catchExc_err h3 (fun c hc => PErr.noConfusion hc)] at H ⊢
      have hx' := hx (by rw [h3]; exact H)
      have h1 : x₁ s = (.error .eof, s3) := by rw [← hx'.1, h3]
      have h2 : x₂ s = (.error .eof, s3) := by rw [← hx'.2, h3]
      rw [catchExc_err h1 (fun c hc => PErr.noConfusion hc),
          catchExc_err h2 (fun c hc => PErr.noConfusion hc)]
      exact ⟨rfl, rfl⟩
    | valueErr k =>
      rw [catchExc_err h3 (fun c hc => PErr.noConfusion hc)] at H ⊢
      have hx' := hx (by rw [h3]; exact H)
      have h1 : x₁ s = (.error (.valueErr k), s3) := by rw [← hx'.1, h3]
      have h2 : x₂ s = (.error (.valueErr k), s3) := by rw [← hx'.2, h3]
      rw [catchExc_err h1 (fun c hc => PErr.noConfusion hc),
          catchExc_err h2 (fun c hc => PErr.noConfusion hc)]
      exact ⟨rfl, rfl⟩
    | attrErr =>
      rw [catchExc_err h3 (fun c hc => PErr.noConfusion hc)] at H ⊢
      have hx' := hx (by rw [h3]; exact H)
      have h1 : x₁ s = (.error .attrErr, s3) := by rw [← hx'.1, h3]
      have h2 : x₂ s = (.error .attrErr, s3) := by rw [← hx'.2, h3]
      rw [catchExc_err h1 (fun c hc => PErr.noConfusion hc),
          catchExc_err h2 (fun c hc => PErr.noConfusion hc)]
      exact ⟨rfl, rfl⟩
    | unboundLocal =>
      rw [catchExc_err h3 (fun c hc => PErr.noConfusion hc)] at H ⊢
      have hx' := hx (by rw [h3]; exact H)
      have h1 : x₁ s = (.error .unboundLocal, s3) := by rw [← hx'.1, h3]
      have h2 : x₂ s = (.error .unboundLocal, s3) := by rw [← hx'.2, h3]
      rw [catchExc_err h1 (fun c hc => PErr.noConfusion hc),
          catchExc_err h2 (fun c hc => PErr.noConfusion hc)]
      exact ⟨rfl, rfl⟩
    | fuelOut =>
      rw [catchExc_err h3 (fun c hc => PErr.noConfusion hc)] at H ⊢
      have hx' := hx (by rw [h3]; exact H)
      have h1 : x₁ s = (.error .fuelOut, s3) := by rw [← hx'.1, h3]
      have h2 : x₂ s = (.error .fuelOut, s3) := by rw [← hx'.2, h3]
      rw [catchExc_err h1 (fun c hc => PErr.noConfusion hc),
          catchExc_err h2 (fun c hc => PErr.noConfusion hc)]
      exact ⟨rfl, rfl⟩
    | internalErr =>
      rw [catchExc_err h3 (fun c hc => PErr.noConfusion hc)] at H ⊢
      have hx' := hx (by rw [h3]; exact H)
      have h1 : x₁ s = (.error .internalErr, s3) := by rw [← hx'.1, h3]
      have h2 : x₂ s = (.error .internalErr, s3) := by rw [← hx'.2, h3]
      rw [catchExc_err h1 (fun c hc => PErr.noConfusion hc),
          catchExc_err h2 (fun c hc => PErr.noConfusion hc)]
      exact ⟨rfl, rfl⟩
  | ok a =>
    rw [catchExc_ok h3] at H ⊢
    have hx' := hx (by rw [h3]; exact ok_fst_ne)
    have h1 : x₁ s = (.ok a, s3) := by rw [← hx'.1, h3]
    have h2 : x₂ s = (.ok a, s3) := by rw [← hx'.2, h3]
    rw [catchExc_ok h1, catchExc_ok h2]
    exact ⟨rfl, rfl⟩

theorem iteM_cong3 {β : Type} (c : Prop) [Decidable c]
    {x₁ x₂ x₃ y₁ y₂ y₃ : M β} {s : PState}
    (hx : c → (x₃ s).1 ≠ .error .enumHit → x₃ s = x₁ s ∧ x₃ s = x₂ s)
    (hy : ¬c → (y₃ s).1 ≠ .error .enumHit → y₃ s = y₁ s ∧ y₃ s = y₂ s)
    (H : ((if c then x₃ else y₃) s).1 ≠ .error .enumHit) :
    (if c then x₃ else y₃) s = (if c then x₁ else y₁) s ∧
    (if c then x₃ else y₃) s = (if c then x₂ else y₂) s := by
  by_cases hc : c
  · simp only [if_pos hc] at H ⊢
    exact hx hc H
  · simp only [if_neg hc] at H ⊢
    exact hy hc H


theorem handlerRun_cong3 {f : Nat} (h : Handler) {s : PState}
    (ih : ∀ (j : Job) (s₀ : PState),
      (exec f .abort j s₀).1 ≠ .error .enumHit →
      exec f .abort j s₀ = exec f .bindString j s₀ ∧
      exec f .abort j s₀ = exec f .bindEnum j s₀)
    (H : (handlerRun (exec f .abort) h s).1 ≠ .error .enumHit) :
    handlerRun (exec f .abort) h s = handlerRun (exec f .bindString) h s ∧
    handlerRun (exec f .abort) h s = handlerRun (exec f .bindEnum) h s := by
  cases h with
  | hjob hj =>
    simp only [handlerRun] at H ⊢
    exact mbind_cong3 (fun h₀ => ih hj s h₀) (fun a s₀ _ => ⟨rfl, rfl⟩) H
  | hstring tc => exact ⟨rfl, rfl⟩
  | href => exact ⟨rfl, rfl⟩
  | hnull => exact ⟨rfl, rfl⟩
  | hblock tc => exact ⟨rfl, rfl⟩

/-- The core equivalence induction: as long as the instrumented
`.abort` run does not flag an ENUM dispatch, all three modes produce
identical results and identical final states. -/
theorem c8_aux : ∀ (f : Nat) (j : Job) (s : PState),
    (exec f .abort j s).1 ≠ .error .enumHit →
    exec f .abort j s = exec f .bindString j s ∧
    exec f .abort j s = exec f .bindEnum j s := by
  intro f
  induction f with
  | zero => intro j s H; exact ⟨rfl, rfl⟩
  | succ f ih =>
    intro j s H
    simp only [exec_succ] at H ⊢
    cases j with
    | runMain =>
      simp only [execBody] at H ⊢
      refine mbind_cong3 (fun _ => ⟨rfl, rfl⟩) ?_ H
      intro magic s₀ h₀
      refine iteM_cong3 _ (fun _ _ => ⟨rfl, rfl⟩) ?_ h₀
      intro _ h₁
      refine mbind_cong3 (fun _ => ⟨rfl, rfl⟩) ?_ h₁
      intro version s₁ h₂
      refine iteM_cong3 _ (fun _ _ => ⟨rfl, rfl⟩) ?_ h₂
      intro _ h₃
      refine mbind_cong3 (fun _ => ⟨rfl, rfl⟩) ?_ h₃
      intro u s₂ h₄
      refine mbind_cong3 (fun h₅ => ih _ _ h₅) ?_ h₄
      intro out s₃ h₅
      exact ⟨rfl, rfl⟩
    | runLoop acc =>
      simp only [execBody] at H ⊢
      refine mbind_cong3 (fun _ => ⟨rfl, rfl⟩) ?_ H
      intro start s₀ h₀
      refine mbind_cong3 (fun _ => ⟨rfl, rfl⟩) ?_ h₀
      intro otc s₁ h₁
      cases otc with
      | none => exact ⟨rfl, rfl⟩
      | some tc =>
        dsimp only
        refine iteM_cong3 _ ?_ ?_ h₁
        · intro _ h₂
          refine mbind_cong3 (fun _ => ⟨rfl, rfl⟩) ?_ h₂
          intro u s₂ h₃
          exact ih _ _ h₃
        · intro _ h₂
          refine mbind_cong3 (fun h₃ => ih _ _ h₃) ?_ h₂
          intro out s₂ h₃
          refine mbind_cong3 (fun _ => ⟨rfl, rfl⟩) ?_ h₃
          intro c s₃ h₄
          refine mbind_cong3 (fun _ => ⟨rfl, rfl⟩) ?_ h₄
          intro c2 s₄ h₅
          exact ih _ _ h₅
    | readContent tc bd =>
      simp only [execBody] at H ⊢
      refine iteM_cong3 _ (fun _ _ => ⟨rfl, rfl⟩) ?_ H
      intro _ h₀
      rcases hh : handlerFor tc with _ | h
      · rw [hh] at h₀
        exact ⟨rfl, rfl⟩
      · rw [hh] at h₀
        dsimp only
        refine mbind_cong3 ?_ (fun c s₀ _ => ⟨rfl, rfl⟩) h₀
        exact fun hcx => catchExc_cong3
          (fun hr => handlerRun_cong3 h ih hr)
          (fun c s₀ _ => ⟨rfl, rfl⟩) hcx
    | readClassdesc =>
      simp only [execBody] at H ⊢
      refine mbind_cong3 (fun _ => ⟨rfl, rfl⟩) ?_ H
      intro tc s₀ h₀
      exact ih _ _ h₀
    | doClassdesc tc mustBeNew =>
      simp only [execBody] at H ⊢
      refine iteM_cong3 _ ?_ ?_ H
      · intro _ h₀
        refine mbind_cong3 (fun _ => ⟨rfl, rfl⟩) ?_ h₀
        intro name s₀ h₁
        refine mbind_cong3 (fun _ => ⟨rfl, rfl⟩) ?_ h₁
        intro svuid s₁ h₂
        refine mbind_cong3 (fun _ => ⟨rfl, rfl⟩) ?_ h₂
        intro handle s₂ h₃
        refine mbind_cong3 (fun _ => ⟨rfl, rfl⟩) ?_ h₃
        intro descFlags s₃ h₄
        refine mbind_cong3 (fun _ => ⟨rfl, rfl⟩) ?_ h₄
        intro nbFields s₄ h₅
        refine iteM_cong3 _ (fun _ _ => ⟨rfl, rfl⟩) ?_ h₅
        intro _ h₆
        refine mbind_cong3 (fun _ => ⟨rfl, rfl⟩) ?_ h₆
        intro fields s₅ h₇
        refine mbind_cong3 (fun h₈ => ih _ _ h₈) ?_ h₇
        intro aout s₆ h₈
        refine mbind_cong3 (fun _ => ⟨rfl, rfl⟩) ?_ h₈
        intro anns s₇ h₉
        refine mbind_cong3 (fun hA => ih _ _ hA) ?_ h₉
        intro sout s₈ hA
        exact ⟨rfl, rfl⟩
      · intro _ h₀
        refine iteM_cong3 _ (fun _ _ => ⟨rfl, rfl⟩) ?_ h₀
        intro _ h₁
        refine iteM_cong3 _ (fun _ _ => ⟨rfl, rfl⟩) ?_ h₁
        intro _ h₂
        refine iteM_cong3 _ ?_ (fun _ _ => ⟨rfl, rfl⟩) h₂
        intro _ h₃
        refine mbind_cong3 (fun _ => ⟨rfl, rfl⟩) ?_ h₃
        intro handle s₀ h₄
        refine mbind_cong3 (fun _ => ⟨rfl, rfl⟩) ?_ h₄
        intro nbIfaces s₁ h₅
        refine mbind_cong3 (fun _ => ⟨rfl, rfl⟩) ?_ h₅
        intro ifaces s₂ h₆
        refine mbind_cong3 (fun h₇ => ih _ _ h₇) ?_ h₆
        intro aout s₃ h₇
        refine mbind_cong3 (fun _ => ⟨rfl, rfl⟩) ?_ h₇
        intro anns s₄ h₈
        refine mbind_cong3 (fun h₉ => ih _ _ h₉) ?_ h₈
        intro sout s₅ h₉
        exact ⟨rfl, rfl⟩
    | readAnnotations acc =>
      simp only [execBody] at H ⊢
      refine mbind_cong3 (fun _ => ⟨rfl, rfl⟩) ?_ H
      intro tc s₀ h₀
      refine iteM_cong3 _ (fun _ _ => ⟨rfl, rfl⟩) ?_ h₀
      intro _ h₁
      refine iteM_cong3 _ ?_ ?_ h₁
      · intro _ h₂
        refine mbind_cong3 (fun _ => ⟨rfl, rfl⟩) ?_ h₂
        intro u s₁ h₃
        exact ih _ _ h₃
      · intro _ h₂
        refine mbind_cong3 (fun h₃ => ih _ _ h₃) ?_ h₂
        intro out s₁ h₃
        refine mbind_cong3 (fun _ => ⟨rfl, rfl⟩) ?_ h₃
        intro c s₂ h₄
        cases c with
        | none => exact ih _ _ h₄
        | some c' =>
          dsimp only
          refine iteM_cong3 _ (fun _ _ => ⟨rfl, rfl⟩) ?_ h₄
          intro _ h₅
          exact ih _ _ h₅
    | doObject =>
      simp only [execBody] at H ⊢
      refine mbind_cong3 (fun h₀ => ih _ _ h₀) ?_ H
      intro out s₀ h₀
      refine mbind_cong3 (fun _ => ⟨rfl, rfl⟩) ?_ h₀
      intro cdO s₁ h₁
      refine mbind_cong3 (fun _ => ⟨rfl, rfl⟩) ?_ h₁
      intro handle s₂ h₂
      dsimp only
      refine mbind_cong3 (fun _ => ⟨rfl, rfl⟩) ?_ h₂
      intro u s₃ h₃
      refine mbind_cong3 (fun h₄ => ih _ _ h₄) ?_ h₃
      intro iout s₄ h₄
      exact ⟨rfl, rfl⟩
    | readClassData inst =>
      simp only [execBody] at H ⊢
      rcases hcd : inst.classdesc with _ | cd
      · exact ⟨rfl, rfl⟩
      · rw [hcd] at H
        refine mbind_cong3 (fun h₀ => ih _ _ h₀) ?_ H
        intro out s₀ h₀
        exact ⟨rfl, rfl⟩
    | classDataLoop rest allData annots =>
      simp only [execBody] at H ⊢
      cases rest with
      | nil => exact ⟨rfl, rfl⟩
      | cons cd rest' =>
        refine iteM_cong3 _ ?_ ?_ H
        · intro _ h₀
          refine iteM_cong3 _ (fun _ _ => ⟨rfl, rfl⟩) ?_ h₀
          intro _ h₁
          refine mbind_cong3 (fun h₂ => ih _ _ h₂) ?_ h₁
          intro vout s₀ h₂
          refine mbind_cong3 (fun _ => ⟨rfl, rfl⟩) ?_ h₂
          intro vals s₁ h₃
          refine iteM_cong3 _ ?_ ?_ h₃
          · intro _ h₄
            refine iteM_cong3 _ (fun _ _ => ⟨rfl, rfl⟩) ?_ h₄
            intro _ h₅
            refine mbind_cong3 (fun h₆ => ih _ _ h₆) ?_ h₅
            intro aout s₂ h₆
            refine mbind_cong3 (fun _ => ⟨rfl, rfl⟩) ?_ h₆
            intro anns s₃ h₇
            exact ih _ _ h₇
          · intro _ h₄
            exact ih _ _ h₄
        · intro _ h₀
          refine iteM_cong3 _ ?_ ?_ h₀
          · intro _ h₁
            refine iteM_cong3 _ (fun _ _ => ⟨rfl, rfl⟩) ?_ h₁
            intro _ h₂
            refine iteM_cong3 _ (fun _ _ => ⟨rfl, rfl⟩) ?_ h₂
            intro _ h₃
            refine mbind_cong3 (fun h₄ => ih _ _ h₄) ?_ h₃
            intro aout s₀ h₄
            refine mbind_cong3 (fun _ => ⟨rfl, rfl⟩) ?_ h₄
            intro anns s₁ h₅
            exact ih _ _ h₅
          · intro _ h₁
            exact ih _ _ h₁
    | fieldValsLoop fields acc =>
      simp only [execBody] at H ⊢
      cases fields with
      | nil => exact ⟨rfl, rfl⟩
      | cons fld rest =>
        refine mbind_cong3 (fun h₀ => ih _ _ h₀) ?_ H
        intro vout s₀ h₀
        refine mbind_cong3 (fun _ => ⟨rfl, rfl⟩) ?_ h₀
        intro v s₁ h₁
        exact ih _ _ h₁
    | readFieldValue ft =>
      simp only [execBody] at H ⊢
      cases ft
      case object =>
        refine mbind_cong3 (fun _ => ⟨rfl, rfl⟩) ?_ H
        intro sub s₀ h₀
        refine iteM_cong3 _ (fun _ _ => ⟨rfl, rfl⟩) ?_ h₀
        intro _ h₁
        refine mbind_cong3 (fun h₂ => ih _ _ h₂) ?_ h₁
        intro out s₁ h₂
        exact ⟨rfl, rfl⟩
      case array =>
        refine mbind_cong3 (fun _ => ⟨rfl, rfl⟩) ?_ H
        intro sub s₀ h₀
        refine iteM_cong3 _ (fun _ _ => ⟨rfl, rfl⟩) ?_ h₀
        intro _ h₁
        refine mbind_cong3 (fun h₂ => ih _ _ h₂) ?_ h₁
        intro out s₁ h₂
        exact ⟨rfl, rfl⟩
      all_goals exact ⟨rfl, rfl⟩
    | doArray =>
      simp only [execBody] at H ⊢
      refine mbind_cong3 (fun h₀ => ih _ _ h₀) ?_ H
      intro out s₀ h₀
      refine mbind_cong3 (fun _ => ⟨rfl, rfl⟩) ?_ h₀
      intro cdO s₁ h₁
      refine mbind_cong3 (fun _ => ⟨rfl, rfl⟩) ?_ h₁
      intro handle s₂ h₂
      cases cdO with
      | none => exact ⟨rfl, rfl⟩
      | some cd =>
        dsimp only
        refine iteM_cong3 _ (fun _ _ => ⟨rfl, rfl⟩) ?_ h₂
        intro _ h₃
        rcases hg : cd.name.get? 1 with _ | tbyte
        · exact ⟨rfl, rfl⟩
        · rw [hg] at h₃
          dsimp only at h₃ ⊢
          rcases hf : fieldTypeOf tbyte with _ | ft
          · exact ⟨rfl, rfl⟩
          · rw [hf] at h₃
            dsimp only at h₃ ⊢
            refine mbind_cong3 (fun _ => ⟨rfl, rfl⟩) ?_ h₃
            intro size s₃ h₄
            refine iteM_cong3 _ (fun _ _ => ⟨rfl, rfl⟩) ?_ h₄
            intro _ h₅
            refine mbind_cong3 (fun h₆ => ih _ _ h₆) ?_ h₅
            intro vout s₄ h₆
            exact ⟨rfl, rfl⟩
    | arrayValsLoop ft n acc =>
      simp only [execBody] at H ⊢
      cases n with
      | zero => exact ⟨rfl, rfl⟩
      | succ n' =>
        refine mbind_cong3 (fun h₀ => ih _ _ h₀) ?_ H
        intro vout s₀ h₀
        refine mbind_cong3 (fun _ => ⟨rfl, rfl⟩) ?_ h₀
        intro v s₁ h₁
        exact ih _ _ h₁
    | doEnum =>
      simp only [execBody, mthrow_apply] at H
      exact absurd rfl H
    | doClass =>
      simp only [execBody] at H ⊢
      refine mbind_cong3 (fun h₀ => ih _ _ h₀) ?_ H
      intro out s₀ h₀
      exact ⟨rfl, rfl⟩
    | doException =>
      simp only [execBody] at H ⊢
      refine mbind_cong3 (fun _ => ⟨rfl, rfl⟩) ?_ H
      intro u s₀ h₀
      refine mbind_cong3 (fun _ => ⟨rfl, rfl⟩) ?_ h₀
      intro tc s₁ h₁
      refine iteM_cong3 _ (fun _ _ => ⟨rfl, rfl⟩) ?_ h₁
      intro _ h₂
      refine mbind_cong3 (fun h₃ => ih _ _ h₃) ?_ h₂
      intro out s₂ h₃
      exact ⟨rfl, rfl⟩


/-- **Claim C8.** For every input byte stream that contains no ENUM tag --
formalised by instrumentation: the `.abort` run raises the distinguished
`enumHit` error exactly when `_do_enum` is dispatched, so a stream is
ENUM-free iff the `.abort` run does not fail with `enumHit` -- the
`deserialize/core.py` parser and the `v2/core.py` parser are equivalent:
the two runs either fail identically or return the same top-level content
sequence, and end in the same final state (same handle table, same
archived maps, same position). -/
theorem c8_enum_free_variants_equivalent (fuel : Nat) (input : List Nat)
    (H : (exec fuel .abort .runMain (initState input)).1 ≠
      Except.error .enumHit) :
    runDeserialize fuel input = runV2 fuel input := by
  have h := c8_aux fuel .runMain (initState input) H
  simp only [runDeserialize, runV2]
  rw [← h.1, ← h.2]

/-- Witness for C8: the header-plus-`TC_NULL` stream is ENUM-free and the
two parser variants agree on it. -/
theorem c8_enum_free_variants_equivalent_witness :
    (exec 6 .abort .runMain
        (initState [0xAC, 0xED, 0x00, 0x05, 0x70])).1 ≠
      Except.error .enumHit ∧
    runDeserialize 6 [0xAC, 0xED, 0x00, 0x05, 0x70] =
      runV2 6 [0xAC, 0xED, 0x00, 0x05, 0x70] :=
  ⟨fun h => Except.noConfusion h,
   c8_enum_free_variants_equivalent 6 _ (fun h => Except.noConfusion h)⟩

/-! ## Claim C1 — publication of referenceable values (arrays) -/

/-- `AC ED 00 05`, then `TC_ARRAY`, a new descriptor `"[B"` (svuid 1,
flags `SC_SERIALIZABLE`, no fields, no annotations, null super), array
size 1, one byte element `0x07`. -/
def c1ArrayBytes : List Nat :=
  [0xAC, 0xED, 0x00, 0x05,
   0x75,
   0x72, 0x00, 0x02, 0x5B, 0x42,
   0x00, 0x00, 0x00, 0x00, 0x00, 0x00, 0x00, 0x01,
   0x02,
   0x00, 0x00,
   0x78,
   0x70,
   0x00, 0x00, 0x00, 0x01,
   0x07]

def c1ArrayDesc : JClassDesc :=
  .mk .normalClass [0x5B, 0x42] 1 0x7E0000 SC_SERIALIZABLE [] [] [] none []

/-- The parser state right after the successful array parse of
`c1ArrayBytes`, positioned at a subsequent `TC_REFERENCE` body that
names the array's allocated handle `0x7E0001`. -/
def c1PostState : PState :=
  { input := c1ArrayBytes ++ [0x71, 0x00, 0x7E, 0x00, 0x01]
    pos := 29
    handles := [(0x7E0000, .classDesc c1ArrayDesc)]
    handleMaps := []
    currentHandle := 0x7E0002 }

set_option maxHeartbeats 6400000 in
/-- C1 (code bug): `_do_array` allocates handle `0x7E0001` for the array
it decodes but never calls `_set_handle`, in both parser variants: after
the run the handle table contains only the descriptor, the array's
handle is unbound, and a subsequent `TC_REFERENCE` to it fails with the
invalid-handle error — contradicting the claim (and spec sections 4.10
and 8.1) that every referenceable produced value, in particular the
array, is published under its handle. -/
theorem c1_do_array_never_publishes :
    (runDeserialize 12 c1ArrayBytes).1 =
      .ok (.contents
        [some (.jarray 0x7E0001 c1ArrayDesc .byte [.prim (.byte 7)])]) ∧
    lookupHandle 0x7E0001 (runDeserialize 12 c1ArrayBytes).2.handles =
      none ∧
    lookupHandle 0x7E0000 (runDeserialize 12 c1ArrayBytes).2.handles =
      some (.classDesc c1ArrayDesc) ∧
    (runV2 12 c1ArrayBytes).1 =
      .ok (.contents
        [some (.jarray 0x7E0001 c1ArrayDesc .byte [.prim (.byte 7)])]) ∧
    lookupHandle 0x7E0001 (runV2 12 c1ArrayBytes).2.handles = none ∧
    exec 5 .bindString (.readContent 0x71 true) c1PostState =
      (.error (.valueErr .unknownHandle),
       { c1PostState with pos := 33 }) := by
  exact ⟨rfl, rfl, rfl, rfl, rfl, rfl⟩

/-! ## Claim C2 — what the enum handle is bound to -/

/-- `AC ED 00 05`, then `TC_ENUM`, a new descriptor `"E"` (svuid 1,
flags `SC_SERIALIZABLE | SC_ENUM`, no fields, null super), then a new
string `"A"` as the constant name. -/
def c2EnumBytes : List Nat :=
  [0xAC, 0xED, 0x00, 0x05,
   0x7E,
   0x72, 0x00, 0x01, 0x45,
   0x00, 0x00, 0x00, 0x00, 0x00, 0x00, 0x00, 0x01,
   0x12,
   0x00, 0x00,
   0x78,
   0x70,
   0x74, 0x00, 0x01, 0x41]

/-- The enum's descriptor as returned (constant `"A"` accumulated). -/
def c2EnumDesc : JClassDesc :=
  .mk .normalClass [0x45] 1 0x7E0000 (SC_SERIALIZABLE + SC_ENUM)
    [] [] [] none [[0x41]]

set_option maxHeartbeats 3200000 in
/-- C2 (counterexample): in the deserialize variant, after `_do_enum`
the allocated handle `0x7E0001` is bound to the constant-name String,
not to the returned Enum — the claim fails for this parser variant. -/
theorem c2_counterexample_deserialize_binds_string :
    (runDeserialize 14 c2EnumBytes).1 =
      .ok (.contents [some (.jenum 0x7E0001 c2EnumDesc ⟨0x7E0002, [0x41]⟩)]) ∧
    lookupHandle 0x7E0001 (runDeserialize 14 c2EnumBytes).2.handles =
      some (.jstring ⟨0x7E0002, [0x41]⟩) := by
  exact ⟨rfl, rfl⟩

/-- What each variant's `_do_enum` leaves bound under the handle of the
enum it returns. -/
def enumHandleBinding : EnumMode → JOut → PState → Prop
  | .bindEnum, .contentO (some (.jenum h cd js)), s' =>
      lookupHandle h s'.handles = some (.jenum h cd js)
  | .bindString, .contentO (some (.jenum h cd js)), s' =>
      lookupHandle h s'.handles = some (.jstring js)
  | _, _, _ => False

/-- C2 (amended): whenever `_do_enum` returns successfully it returns an
Enum under a freshly allocated handle, and that handle is bound in the
handle table to the Enum object itself in the v2 variant but to the
constant-name String in the deserialize variant; a later `TC_REFERENCE`
to the handle therefore resolves to the Enum only in v2. -/
theorem c2_amended_enum_binding (em : EnumMode) (f : Nat) (s : PState)
    (v : JOut) (s' : PState)
    (hok : exec f em .doEnum s = (.ok v, s')) :
    enumHandleBinding em v s' := by
  match f with
  | 0 =>
    simp only [exec_zero, mthrow_apply, Prod.mk.injEq] at hok
    exact Except.noConfusion hok.1
  | f + 1 =>
    simp only [exec_succ, execBody] at hok
    cases em with
    | abort =>
      simp only [mthrow_apply, Prod.mk.injEq] at hok
      exact Except.noConfusion hok.1
    | bindString =>
      simp only [mbind_apply] at hok
      rcases h1 : exec f .bindString .readClassdesc s with ⟨r1, s1⟩
      rw [h1] at hok
      cases r1 with
      | error e => simp at hok
      | ok out =>
        cases out <;>
          simp only [expectDesc, mpure_apply, mthrow_apply] at hok <;>
          try exact absurd hok (by simp)
        case desc cdO =>
          cases cdO with
          | none =>
            simp only [mthrow_apply, Prod.mk.injEq] at hok
            exact Except.noConfusion hok.1
          | some cd =>
            simp only [newHandle_apply, mbind_apply] at hok
            rcases h2 : readUByte { s1 with
              currentHandle := s1.currentHandle + 1 } with ⟨r2, s2⟩
            rw [h2] at hok
            cases r2 with
            | error e => simp at hok
            | ok sub =>
              dsimp only at hok
              rcases h3 : readNewStringM sub s2 with ⟨r3, s3⟩
              rw [h3] at hok
              cases r3 with
              | error e => simp at hok
              | ok js =>
                dsimp only at hok
                simp only [setHandle_apply] at hok
                rcases h4 : lookupHandle s1.currentHandle s3.handles
                  with _ | c4
                · rw [h4] at hok
                  simp only [mpure_apply, Prod.mk.injEq] at hok
                  obtain ⟨hv, hs⟩ := hok
                  obtain ⟨hv⟩ := hv
                  subst hs
                  simp only [enumHandleBinding]
                  exact lookupHandle_append_self _ _ _ h4
                · rw [h4] at hok
                  simp at hok
    | bindEnum =>
      simp only [mbind_apply] at hok
      rcases h1 : exec f .bindEnum .readClassdesc s with ⟨r1, s1⟩
      rw [h1] at hok
      cases r1 with
      | error e => simp at hok
      | ok out =>
        cases out <;>
          simp only [expectDesc, mpure_apply, mthrow_apply] at hok <;>
          try exact absurd hok (by simp)
        case desc cdO =>
          cases cdO with
          | none =>
            simp only [mthrow_apply, Prod.mk.injEq] at hok
            exact Except.noConfusion hok.1
          | some cd =>
            simp only [newHandle_apply, mbind_apply] at hok
            rcases h2 : readUByte { s1 with
              currentHandle := s1.currentHandle + 1 } with ⟨r2, s2⟩
            rw [h2] at hok
            cases r2 with
            | error e => simp at hok
            | ok sub =>
              dsimp only at hok
              rcases h3 : readNewStringM sub s2 with ⟨r3, s3⟩
              rw [h3] at hok
              cases r3 with
              | error e => simp at hok
              | ok js =>
                dsimp only at hok
                simp only [setHandle_apply] at hok
                rcases h4 : lookupHandle s1.currentHandle s3.handles
                  with _ | c4
                · rw [h4] at hok
                  simp only [mpure_apply, Prod.mk.injEq] at hok
                  obtain ⟨hv, hs⟩ := hok
                  obtain ⟨hv⟩ := hv
                  subst hs
                  simp only [enumHandleBinding]
                  exact lookupHandle_append_self _ _ _ h4
                · rw [h4] at hok
                  simp at hok

/-! ## Claim C3 — `do_object` with a null class descriptor -/

theorem error_pair_ne_ok {α : Type} {e : PErr} {a : α} {s s' : PState} :
    ((Except.error e : Except PErr α), s) ≠ (.ok a, s') := by
  intro hc
  exact Except.noConfusion (congrArg Prod.fst hc)

theorem ok_pair_inj {α : Type} {a b : α} {s s' : PState}
    (h : ((Except.ok a : Except PErr α), s) = (.ok b, s')) :
    a = b ∧ s = s' :=
  ⟨Except.ok.inj (congrArg Prod.fst h), congrArg Prod.snd h⟩

theorem withData_classdesc (i : JInstance)
    (d : List (JClassDesc × List (JField × JValue)))
    (a : List (JClassDesc × List (Option JContent))) :
    (i.withData d a).classdesc = i.classdesc := by
  cases i; rfl

/-- `read_class_data` on an instance with a null descriptor always
fails (the `get_hierarchy` attribute access on `None` raises). -/
theorem readClassData_null_fails (em : EnumMode) (f : Nat)
    (inst : JInstance) (s : PState) (hnull : inst.classdesc = none) :
    isOkE (exec f em (.readClassData inst) s).1 = false := by
  match f with
  | 0 => rw [exec_zero]; rfl
  | f + 1 =>
    rw [exec_succ]
    simp only [execBody, hnull, mthrow_apply]
    rfl

/-- The returned `JOut` is an instance carrying the same descriptor as
`inst`. -/
def preservesClassdesc (inst : JInstance) : JOut → Prop
  | .instanceR i => i.classdesc = inst.classdesc
  | _ => False

/-- `read_class_data` can only return an instance with the same
descriptor as the one it was given (it only fills field data and
annotations). -/
theorem readClassData_ok_classdesc (em : EnumMode) (f : Nat)
    (inst : JInstance) (s : PState) (r : JOut) (s₂ : PState)
    (h : exec f em (.readClassData inst) s = (.ok r, s₂)) :
    preservesClassdesc inst r := by
  match f with
  | 0 =>
    rw [exec_zero, mthrow_apply] at h
    exact absurd h error_pair_ne_ok
  | f + 1 =>
    rw [exec_succ] at h
    simp only [execBody] at h
    rcases hcd : inst.classdesc with _ | cd
    · rw [hcd] at h
      simp only [mthrow_apply] at h
      exact absurd h error_pair_ne_ok
    · rw [hcd] at h
      simp only [mbind_apply] at h
      rcases h1 : exec f em (.classDataLoop cd.hierarchy [] []) s
        with ⟨r1, s1⟩
      rw [h1] at h
      cases r1 with
      | error e =>
        dsimp only at h
        exact absurd h error_pair_ne_ok
      | ok out =>
        cases out <;>
          simp only [expectClassData, mpure_apply, mthrow_apply] at h <;>
          try exact absurd h error_pair_ne_ok
        case classData d a =>
          obtain ⟨hr, _⟩ := ok_pair_inj h
          subst hr
          simp only [preservesClassdesc, withData_classdesc, hcd]

/-- A returned content value is an instance with a non-null
descriptor. -/
def instanceHasDesc : JOut → Prop
  | .contentO (some (.instance i)) => i.classdesc.isSome = true
  | _ => False

/-- C3: `do_object` fails whenever the class descriptor read at its
start is null — the transformer-free construction proceeds to
`read_class_data`, whose `instance.classdesc.get_hierarchy` attribute
access on `None` raises — and a successful `do_object` always returns
an Instance whose descriptor is non-null. -/
theorem c3_do_object_null_descriptor :
    (∀ (em : EnumMode) (f : Nat) (s s₁ : PState),
      exec f em .readClassdesc s = (.ok (.desc none), s₁) →
      isOkE (exec (f + 1) em .doObject s).1 = false)
  ∧ (∀ (em : EnumMode) (f : Nat) (s : PState) (v : JOut) (s' : PState),
      exec f em .doObject s = (.ok v, s') → instanceHasDesc v) := by
  constructor
  · intro em f s s₁ h
    rw [exec_succ]
    simp only [execBody, mbind_apply, h, expectDesc, mpure_apply,
      newHandle_apply, setHandle_apply]
    rcases h2 : lookupHandle s₁.currentHandle s₁.handles with _ | c
    · dsimp only
      match f with
      | 0 => rw [exec_zero, mthrow_apply]; rfl
      | f' + 1 =>
        rw [exec_succ]
        simp only [execBody, JInstance.classdesc, mthrow_apply]
        rfl
    · rfl
  · intro em f s v s' h
    match f with
    | 0 =>
      rw [exec_zero, mthrow_apply] at h
      exact absurd h error_pair_ne_ok
    | f + 1 =>
      rw [exec_succ] at h
      simp only [execBody, mbind_apply] at h
      rcases h1 : exec f em .readClassdesc s with ⟨r1, s1⟩
      rw [h1] at h
      cases r1 with
      | error e =>
        dsimp only at h
        exact absurd h error_pair_ne_ok
      | ok out =>
        cases out <;>
          simp only [expectDesc, mpure_apply, mthrow_apply] at h <;>
          try exact absurd h error_pair_ne_ok
        case desc cdO =>
          simp only [newHandle_apply, setHandle_apply] at h
          rcases h2 : lookupHandle s1.currentHandle s1.handles with _ | c
          · rw [h2] at h
            dsimp only at h
            rcases h3 : exec f em
                (.readClassData (.mk s1.currentHandle cdO [] [] false))
                { s1 with
                    currentHandle := s1.currentHandle + 1
                    handles := s1.handles ++
                      [(s1.currentHandle,
                        .instance (.mk s1.currentHandle cdO [] [] false))] }
              with ⟨r3, s3⟩
            rw [h3] at h
            cases r3 with
            | error e =>
              dsimp only at h
              exact absurd h error_pair_ne_ok
            | ok iout =>
              have hcd := readClassData_ok_classdesc _ _ _ _ _ _ h3
              cases iout <;>
                simp only [expectInstance, mpure_apply, mthrow_apply]
                  at h <;>
                try exact absurd h error_pair_ne_ok
              case instanceR i' =>
                obtain ⟨hv, _⟩ := ok_pair_inj h
                subst hv
                simp only [preservesClassdesc, JInstance.classdesc] at hcd
                cases cdO with
                | none =>
                  have hfail := readClassData_null_fails em f
                    (.mk s1.currentHandle none [] [] false)
                    { s1 with
                        currentHandle := s1.currentHandle + 1
                        handles := s1.handles ++
                          [(s1.currentHandle,
                            .instance (.mk s1.currentHandle none [] [] false))] }
                    rfl
                  rw [h3] at hfail
                  simp [isOkE] at hfail
                | some cd =>
                  simp [instanceHasDesc, JInstance.classdesc, hcd]
          · rw [h2] at h
            dsimp only at h
            exact absurd h error_pair_ne_ok

/-! ## Claim C6 — `do_exception` -/

theorem setException_isException (i : JInstance) :
    i.setException.isException = true := by
  cases i; rfl

/-- The value returned by a successful `do_exception`: an Instance
carrying the is-exception flag. -/
def exceptionOutcome : JOut → Prop
  | .contentO (some (.instance i)) => i.isException = true
  | _ => False

/-- C6: `do_exception` first resets the session; it fails when the inner
tag is `TC_RESET`, when the inner content is null, or when it is not an
Instance; it re-raises the internal `ExceptionRead` carrier when the
inner Instance is already flagged; and when it returns, it returns that
Instance flagged is-exception, with the session reset a second time
(empty handle table, counter back at the base). -/
theorem c6_do_exception_behaviour :
    (∀ (em : EnumMode) (f : Nat) (s s₁ : PState),
      readUByte (resetFn s) = (.ok TC_RESET, s₁) →
      exec (f + 1) em .doException s =
        (.error (.valueErr .resetInException), s₁))
  ∧ (∀ (em : EnumMode) (f : Nat) (s s₁ s₂ : PState) (tc : Nat),
      readUByte (resetFn s) = (.ok tc, s₁) → tc ≠ TC_RESET →
      exec f em (.readContent tc false) s₁ = (.ok (.contentO none), s₂) →
      exec (f + 1) em .doException s =
        (.error (.valueErr .nullException), s₂))
  ∧ (∀ (em : EnumMode) (f : Nat) (s s₁ s₂ : PState) (tc : Nat)
       (c : JContent),
      readUByte (resetFn s) = (.ok tc, s₁) → tc ≠ TC_RESET →
      exec f em (.readContent tc false) s₁ =
        (.ok (.contentO (some c)), s₂) →
      c.isInstance = false →
      exec (f + 1) em .doException s =
        (.error (.valueErr .exceptionNotInstance), s₂))
  ∧ (∀ (em : EnumMode) (f : Nat) (s s₁ s₂ : PState) (tc : Nat)
       (i : JInstance),
      readUByte (resetFn s) = (.ok tc, s₁) → tc ≠ TC_RESET →
      exec f em (.readContent tc false) s₁ =
        (.ok (.contentO (some (.instance i))), s₂) →
      i.isException = true →
      exec (f + 1) em .doException s =
        (.error (.exceptionRead (.instance i)), s₂))
  ∧ (∀ (em : EnumMode) (f : Nat) (s : PState) (v : JOut) (s' : PState),
      exec f em .doException s = (.ok v, s') →
      exceptionOutcome v ∧ s'.handles = [] ∧
        s'.currentHandle = BASE_REFERENCE_IDX) := by
  refine ⟨?_, ?_, ?_, ?_, ?_⟩
  · intro em f s s₁ hb
    rw [exec_succ]
    simp only [execBody, mbind_apply, resetM_apply, hb]
    simp only [if_true, mthrow_apply]
  · intro em f s s₁ s₂ tc hb htc hc
    rw [exec_succ]
    simp only [execBody, mbind_apply, resetM_apply, hb]
    rw [if_neg htc]
    simp only [mbind_apply, hc, expectContentO, mpure_apply, mthrow_apply]
  · intro em f s s₁ s₂ tc c hb htc hc hni
    rw [exec_succ]
    simp only [execBody, mbind_apply, resetM_apply, hb]
    rw [if_neg htc]
    simp only [mbind_apply, hc, expectContentO, mpure_apply, mthrow_apply]
    cases c <;> first
      | rfl
      | exact Bool.noConfusion hni
  · intro em f s s₁ s₂ tc i hb htc hc hexc
    rw [exec_succ]
    simp only [execBody, mbind_apply, resetM_apply, hb]
    rw [if_neg htc]
    simp only [mbind_apply, hc, expectContentO, mpure_apply, mthrow_apply]
    rw [if_pos hexc, mthrow_apply]
  · intro em f s v s' h
    match f with
    | 0 =>
      rw [exec_zero, mthrow_apply] at h
      exact absurd h error_pair_ne_ok
    | f + 1 =>
      rw [exec_succ] at h
      simp only [execBody, mbind_apply, resetM_apply] at h
      rcases h1 : readUByte (resetFn s) with ⟨r1, s₁⟩
      rw [h1] at h
      cases r1 with
      | error e =>
        dsimp only at h
        exact absurd h error_pair_ne_ok
      | ok tc =>
        dsimp only at h
        by_cases htc : tc = TC_RESET
        · rw [if_pos htc, mthrow_apply] at h
          exact absurd h error_pair_ne_ok
        · rw [if_neg htc] at h
          simp only [mbind_apply] at h
          rcases h2 : exec f em (.readContent tc false) s₁ with ⟨r2, s₂⟩
          rw [h2] at h
          cases r2 with
          | error e =>
            dsimp only at h
            exact absurd h error_pair_ne_ok
          | ok out =>
            cases out <;>
              simp only [expectContentO, mpure_apply, mthrow_apply]
                at h <;>
              try exact absurd h error_pair_ne_ok
            next c =>
              cases c with
              | none =>
                simp only [mthrow_apply] at h
                exact absurd h error_pair_ne_ok
              | some c' =>
                cases c' <;>
                  simp only [mthrow_apply] at h <;>
                  try exact absurd h error_pair_ne_ok
                next i =>
                  by_cases hexc : i.isException = true
                  · rw [if_pos hexc, mthrow_apply] at h
                    exact absurd h error_pair_ne_ok
                  · rw [if_neg hexc] at h
                    simp only [mbind_apply, resetM_apply, mpure_apply] at h
                    obtain ⟨hv, hs⟩ := ok_pair_inj h
                    subst hv
                    subst hs
                    refine ⟨?_, rfl, rfl⟩
                    simp only [exceptionOutcome, setException_isException]

/-- A nested exception frame: the inner tag is itself `TC_EXCEPTION`,
whose instance (class `"E"`, empty, serializable) comes back flagged, so
the outer `do_exception` raises the internal carrier. -/
def c6NestedExcBytes : List Nat :=
  [0x7B, 0x73,
   0x72, 0x00, 0x01, 0x45,
   0x00, 0x00, 0x00, 0x00, 0x00, 0x00, 0x00, 0x01,
   0x02, 0x00, 0x00, 0x78, 0x70]

def c6EDesc : JClassDesc :=
  .mk .normalClass [0x45] 1 0x7E0000 2 [] [] [] none []

/-- A plain exception frame: inner tag `TC_OBJECT` of class `"E"`. -/
def c6PlainExcBytes : List Nat := c6NestedExcBytes.drop 1

theorem c6_do_exception_witness :
    exec 2 .bindString .doException (initState [0x79]) =
      (.error (.valueErr .resetInException),
       { initState [0x79] with pos := 1 }) ∧
    (exceptionOutcome (.contentO (some (.instance
        (.mk 0x7E0001 (some c6EDesc) [(c6EDesc, [])] [] true)))) ∧
      (exec 12 .bindString .doException
        (initState c6PlainExcBytes)).2.handles = [] ∧
      (exec 12 .bindString .doException
        (initState c6PlainExcBytes)).2.currentHandle =
        BASE_REFERENCE_IDX) := by
  refine ⟨?_, ?_⟩
  · exact (c6_do_exception_behaviour.1 .bindString 1 (initState [0x79])
      { initState [0x79] with pos := 1 } rfl)
  · exact (c6_do_exception_behaviour.2.2.2.2 .bindString 12
      (initState c6PlainExcBytes) _ _ rfl)

/-! ## Claim C7 — `read_content` dispatch and error routing -/

/-- C7: `read_content` fails with the unexpected-block-data error for
either block-data tag when block data is not allowed, fails with the
unknown-tag error when no handler is registered, converts a handler's
internal `ExceptionRead` signal into an ordinary return of the carried
content, and propagates every other handler error unchanged. -/
theorem c7_read_content_dispatch :
    (∀ (em : EnumMode) (f : Nat) (tc : Nat) (s : PState),
      (tc = TC_BLOCKDATA ∨ tc = TC_BLOCKDATALONG) →
      exec (f + 1) em (.readContent tc false) s =
        (.error (.valueErr .blockDataNotAllowed), s))
  ∧ (∀ (em : EnumMode) (f : Nat) (tc : Nat) (bd : Bool) (s : PState),
      handlerFor tc = none →
      exec (f + 1) em (.readContent tc bd) s =
        (.error (.valueErr .unknownTag), s))
  ∧ (∀ (em : EnumMode) (f : Nat) (tc : Nat) (bd : Bool) (s s' : PState)
       (h : Handler) (c : JContent),
      handlerFor tc = some h →
      ¬(bd = false ∧ (tc = TC_BLOCKDATA ∨ tc = TC_BLOCKDATALONG)) →
      handlerRun (exec f em) h s = (.error (.exceptionRead c), s') →
      exec (f + 1) em (.readContent tc bd) s =
        (.ok (.contentO (some c)), s'))
  ∧ (∀ (em : EnumMode) (f : Nat) (tc : Nat) (bd : Bool) (s s' : PState)
       (h : Handler) (e : PErr),
      handlerFor tc = some h →
      ¬(bd = false ∧ (tc = TC_BLOCKDATA ∨ tc = TC_BLOCKDATALONG)) →
      handlerRun (exec f em) h s = (.error e, s') →
      (∀ c : JContent, e ≠ .exceptionRead c) →
      exec (f + 1) em (.readContent tc bd) s = (.error e, s')) := by
  refine ⟨?_, ?_, ?_, ?_⟩
  · intro em f tc s htc
    rw [exec_succ]
    simp only [execBody]
    rw [if_pos ⟨trivial, htc⟩, mthrow_apply]
  · intro em f tc bd s hh
    have hcond : ¬(bd = false ∧ (tc = TC_BLOCKDATA ∨ tc = TC_BLOCKDATALONG)) := by
      rintro ⟨-, hc | hc⟩ <;> subst hc <;>
        simp [handlerFor, TC_OBJECT, TC_CLASS, TC_ARRAY, TC_STRING,
          TC_LONGSTRING, TC_ENUM, TC_CLASSDESC, TC_PROXYCLASSDESC,
          TC_REFERENCE, TC_NULL, TC_EXCEPTION, TC_BLOCKDATA,
          TC_BLOCKDATALONG] at hh
    rw [exec_succ]
    simp only [execBody]
    rw [if_neg hcond, hh]
    dsimp only
    rw [mthrow_apply]
  · intro em f tc bd s s' h c hh hbd hrun
    rw [exec_succ]
    simp only [execBody]
    rw [if_neg hbd, hh]
    dsimp only
    simp only [mbind_apply, catchExc_apply, hrun, mpure_apply]
  · intro em f tc bd s s' h e hh hbd hrun hne
    rw [exec_succ]
    simp only [execBody]
    rw [if_neg hbd, hh]
    dsimp only
    simp only [mbind_apply, catchExc_apply, hrun]
    cases e <;> first
      | rfl
      | exact absurd rfl (hne _)

/-- The instance raised through the nested exception frame, and the
state at the raise point (after the inner frame's final reset archived
the two live handles). -/
def c7RaisedInstance : JInstance :=
  .mk 0x7E0001 (some c6EDesc) [(c6EDesc, [])] [] true

def c7RaiseState : PState :=
  { input := c6NestedExcBytes
    pos := 19
    handles := []
    handleMaps := [[(0x7E0000, .classDesc c6EDesc),
                    (0x7E0001, .instance
                      (.mk 0x7E0001 (some c6EDesc) [] [] false))]]
    currentHandle := 0x7E0000 }

set_option maxHeartbeats 1600000 in
theorem c7_read_content_witness :
    exec 1 .bindString (.readContent TC_BLOCKDATA false) (initState []) =
      (.error (.valueErr .blockDataNotAllowed), initState []) ∧
    exec 1 .bindString (.readContent 0x00 true) (initState []) =
      (.error (.valueErr .unknownTag), initState []) ∧
    exec 13 .bindString (.readContent TC_EXCEPTION false)
        (initState c6NestedExcBytes) =
      (.ok (.contentO (some (.instance c7RaisedInstance))), c7RaiseState) ∧
    exec 1 .bindString (.readContent TC_REFERENCE true)
        (initState [0, 0, 0, 0]) =
      (.error (.valueErr .unknownHandle),
       { initState [0, 0, 0, 0] with pos := 4 }) := by
  refine ⟨?_, ?_, ?_, ?_⟩
  · exact c7_read_content_dispatch.1 .bindString 0 TC_BLOCKDATA
      (initState []) (Or.inl rfl)
  · exact c7_read_content_dispatch.2.1 .bindString 0 0x00 true
      (initState []) rfl
  · exact c7_read_content_dispatch.2.2.1 .bindString 12 TC_EXCEPTION false
      (initState c6NestedExcBytes) c7RaiseState (.hjob .doException)
      (.instance c7RaisedInstance) rfl (by decide) rfl
  · exact c7_read_content_dispatch.2.2.2 .bindString 0 TC_REFERENCE true
      (initState [0, 0, 0, 0]) { initState [0, 0, 0, 0] with pos := 4 }
      .href (.valueErr .unknownHandle) rfl (by decide) rfl
      (fun c hc => PErr.noConfusion hc)

/-- A lone `TC_NULL` where `do_object` expects the class descriptor. -/
def c3NullDescBytes : List Nat := [0x70]

/-- A new descriptor `"X"` (svuid 1, `SC_SERIALIZABLE`, no fields, no
annotations, null super) followed by empty class data. -/
def c3XDescBytes : List Nat :=
  [0x72, 0x00, 0x01, 0x58,
   0x00, 0x00, 0x00, 0x00, 0x00, 0x00, 0x00, 0x01,
   0x02, 0x00, 0x00, 0x78, 0x70]

def c3XDesc : JClassDesc :=
  .mk .normalClass [0x58] 1 0x7E0000 2 [] [] [] none []

theorem c3_do_object_witness :
    isOkE (exec 3 .bindString .doObject (initState c3NullDescBytes)).1 =
      false ∧
    instanceHasDesc (.contentO (some (.instance
      (.mk 0x7E0001 (some c3XDesc) [(c3XDesc, [])] [] false)))) := by
  exact ⟨c3_do_object_null_descriptor.1 .bindString 2
           (initState c3NullDescBytes) _ rfl,
         c3_do_object_null_descriptor.2 .bindString 9
           (initState c3XDescBytes) _ _ rfl⟩

/-- Witness: the v2 variant on the concrete enum stream binds the Enum
object under the allocated handle `0x7E0001`. -/
theorem c2_amended_enum_binding_witness :
    enumHandleBinding .bindEnum
      (.contentO (some (.jenum 0x7E0001 c2EnumDesc ⟨0x7E0002, [0x41]⟩)))
      (exec 10 .bindEnum .doEnum
        { initState c2EnumBytes with pos := 5 }).2 := by
  exact c2_amended_enum_binding .bindEnum 10
    { initState c2EnumBytes with pos := 5 } _ _ rfl

end Javaobj
